import Mathlib

/-! Yarn-winder motor control core (`yarn-winder/lib/motor/MosfetMotor.cpp`)

A shallow embedding of the control logic of `MosfetMotor`, followed by theorems
about it.

Conventions of the embedding.

* The constants defined in `MosfetMotor.h` (`MIN_SPEED`, `MAX_SPEED`, `STEP_SPEED`, `EVOLUTION`,
  `EVOLUTION_OFFSET`, `SPIN_TIMEOUT`, `SPINUP_TIMEOUT`, `MIN_STALL`,
  `MAX_STALL`, `STEP_STALL`) are parameters, collected in `Config`, together
  with the bit width of `unsigned long`, which depends on the target board.  They are taken to be non-negative
  integer literals; expressions over them alone (`2 * EVOLUTION`) are computed
  without overflow.
* Machine integers are natural numbers.  Every store into a fixed-width
  variable is an explicit reduction: `toUL` (`unsigned long`), `toU8`
  (`uint8_t`, the type of the argument of `set_speed`), `toU16` (`uint16_t`,
  the argument of `set_stall_timeout`).  Expressions mixing a `uint8_t` with
  constants are evaluated in `Int`, as the integer promotions prescribe.
* A function-local `static` is a field of the state holding `none` until the
  first call runs its initialiser.  The value `millis()` returns inside such an
  initialiser is an input of the call (`Clock`).
* Hardware effects (`analogWrite`, `pinMode`, EEPROM writes) do not feed back
  into the control state and are left out.
* `get_speed` and `get_len` compute in `float` and `double`; their results
  depend on the rounding of those operations and they are not embedded.
* The enumeration `PROFILE` is an inductive type with the three enumerators;
  `prev_profile` and `next_profile` compute on their integer values.
-/

namespace MosfetMotor

set_option maxRecDepth 8000

/-- Compile-time constants of the firmware and the width of `unsigned long`. -/
structure Config where
  ULONG_BITS : Nat
  MIN_SPEED : Nat
  MAX_SPEED : Nat
  STEP_SPEED : Nat
  EVOLUTION : Nat
  EVOLUTION_OFFSET : Nat
  SPIN_TIMEOUT : Nat
  SPINUP_TIMEOUT : Nat
  MIN_STALL : Nat
  MAX_STALL : Nat
  STEP_STALL : Nat
  deriving DecidableEq, Repr

/-- Largest value of `unsigned long` (`ULONG_MAX` of `<climits>`). -/
def ULONG_MAX (c : Config) : Nat := 2 ^ c.ULONG_BITS - 1

/-- Conversion of an integer value to `unsigned long`. -/
def toUL (c : Config) (x : Int) : Nat := (x % (2 : Int) ^ c.ULONG_BITS).toNat

/-- Conversion of an integer value to `uint8_t`. -/
def toU8 (x : Int) : Nat := (x % 256).toNat

/-- Conversion of an integer value to `uint16_t`. -/
def toU16 (x : Int) : Nat := (x % 65536).toNat

/-- Modelled from the spec: the enumeration `PROFILE` is declared in
`MosfetMotor.h`; its enumerators are `Manual`, `Semi`, `Auto`, ordered
`Manual < Semi < Auto`. -/
inductive PROFILE where
  | Manual
  | Semi
  | Auto
  deriving DecidableEq, Repr

/-- Modelled from the spec: the integer value of an enumerator, consecutive in
the order `Manual < Semi < Auto` that the comparisons of `prev_profile` and
`next_profile` rely on. -/
def PROFILE.toInt : PROFILE → Int
  | PROFILE.Manual => 0
  | PROFILE.Semi => 1
  | PROFILE.Auto => 2

/-- The cast `(PROFILE) n`.  Integers that are the value of no enumerator are not
representable in `PROFILE`; they are sent to `Manual`, and the guards of
`prev_profile` and `next_profile` never produce one. -/
def PROFILE.ofInt (n : Int) : PROFILE :=
  if n = 1 then PROFILE.Semi else if n = 2 then PROFILE.Auto else PROFILE.Manual

/-- Derived electrical state of the motor. -/
inductive MotorState where
  | OFF
  | ON
  deriving DecidableEq, Repr

/-- The two statics shared by a "no progress over a window" detector. -/
structure Baseline where
  last_rotary_count : Nat
  last_spin_tick : Nat
  deriving DecidableEq, Repr

/-- Control state of the motor: the member variables read by the control logic
and the function-local statics of the detectors and of the ramp controller. -/
structure Motor where
  speed : Nat
  rotary_count : Nat
  rotary_count_end : Nat
  stall_timeout : Nat
  profile : PROFILE
  no_spin : Bool
  spin_detect_statics : Option Baseline
  stall_detect_statics : Option Baseline
  last_slow_tick : Option Nat
  last_inc_tick : Option Nat
  deriving DecidableEq, Repr

/-- Readings of `millis()` during one call of `cycle()`: `now` is the reading at
the top of `cycle`, the others are what `millis()` returns inside the static
initialiser of the named function, should that initialiser run in this call. -/
structure Clock where
  now : Nat
  spin_detect_millis : Nat
  stall_detect_millis : Nat
  spin_up_millis : Nat
  spin_down_millis : Nat
  deriving DecidableEq, Repr

/-- The speed invariant of the data model. -/
def SpeedOk (c : Config) (s : Motor) : Prop :=
  s.speed = 0 ∨ (c.MIN_SPEED ≤ s.speed ∧ s.speed ≤ c.MAX_SPEED)

/-- Elapsed time between two clock samples (`get_period`). -/
def get_period (c : Config) (last next : Nat) : Nat :=
  if last > next then
    toUL c (((ULONG_MAX c : Int) - last) + next)
  else
    toUL c ((next : Int) - last)

/-- Model of `MosfetMotor::get_state`. -/
def get_state (s : Motor) : MotorState :=
  if s.speed ≠ 0 then MotorState.ON else MotorState.OFF

/-- Model of `MosfetMotor::set_speed`, applied to the value before its
conversion to the `uint8_t` parameter. -/
def set_speed (v : Int) (s : Motor) : Motor :=
  let a := toU8 v
  let s1 := if a ≠ 0 then { s with no_spin := false } else s
  { s1 with speed := a }

/-- Model of `MosfetMotor::set_stall_timeout`, applied to the value before its
conversion to the `uint16_t` parameter. -/
def set_stall_timeout (v : Int) (s : Motor) : Motor :=
  { s with stall_timeout := toU16 v }

/-- Model of `MosfetMotor::reset`. -/
def reset (s : Motor) : Motor :=
  { set_speed 0 s with rotary_count := 0 }

/-- Model of `MosfetMotor::toggle`. -/
def toggle (c : Config) (s : Motor) : Motor :=
  if get_state s = MotorState.ON then set_speed 0 s else set_speed c.MIN_SPEED s

/-- Model of `MosfetMotor::increase_speed`. -/
def increase_speed (c : Config) (s : Motor) : Motor :=
  if s.speed ≥ c.MIN_SPEED ∧ s.speed + c.STEP_SPEED ≤ c.MAX_SPEED then
    set_speed ((s.speed : Int) + c.STEP_SPEED) s
  else s

/-- Model of `MosfetMotor::decrease_speed`. -/
def decrease_speed (c : Config) (s : Motor) : Motor :=
  if s.speed > 0 then
    if (s.speed : Int) - c.STEP_SPEED > c.MIN_SPEED then
      set_speed ((s.speed : Int) - c.STEP_SPEED) s
    else
      set_speed 0 s
  else s

/-- Model of `MosfetMotor::get_evolution`. -/
def get_evolution (c : Config) (s : Motor) : Nat :=
  s.rotary_count / c.EVOLUTION

/-- Model of `MosfetMotor::get_remaining_evolutions`. -/
def get_remaining_evolutions (c : Config) (s : Motor) : Nat :=
  if s.rotary_count_end = 0 ∨ get_evolution c s ≥ s.rotary_count_end then
    0
  else
    toUL c ((toUL c ((s.rotary_count_end : Int) * c.EVOLUTION) : Int) - s.rotary_count)

/-- Model of `MosfetMotor::decrease_stop_evolution`. -/
def decrease_stop_evolution (s : Motor) : Motor :=
  let s1 := { s with rotary_count := 0 }
  if s1.rotary_count_end > 0 then
    { s1 with rotary_count_end := s1.rotary_count_end - 1 }
  else s1

/-- Model of `MosfetMotor::increase_stop_evolution`. -/
def increase_stop_evolution (c : Config) (s : Motor) : Motor :=
  if s.rotary_count_end < ULONG_MAX c then
    { s with rotary_count_end := s.rotary_count_end + 1 }
  else s

/-- Model of `MosfetMotor::increase_stall_timeout`. -/
def increase_stall_timeout (c : Config) (s : Motor) : Motor :=
  if s.stall_timeout < c.MIN_STALL then
    set_stall_timeout c.MIN_STALL s
  else if s.stall_timeout < c.MAX_STALL then
    set_stall_timeout ((s.stall_timeout : Int) + c.STEP_STALL) s
  else s

/-- Model of `MosfetMotor::decrease_stall_timeout`. -/
def decrease_stall_timeout (c : Config) (s : Motor) : Motor :=
  if s.stall_timeout > c.MIN_STALL then
    set_stall_timeout ((s.stall_timeout : Int) - c.STEP_STALL) s
  else if s.stall_timeout ≠ 0 then
    set_stall_timeout 0 s
  else s

/-- Model of `MosfetMotor::prev_profile`. -/
def prev_profile (s : Motor) : Motor :=
  if s.profile.toInt > PROFILE.Manual.toInt then
    { s with profile := PROFILE.ofInt (s.profile.toInt - 1) }
  else s

/-- Model of `MosfetMotor::next_profile`. -/
def next_profile (s : Motor) : Motor :=
  if s.profile.toInt < PROFILE.Auto.toInt then
    { s with profile := PROFILE.ofInt (s.profile.toInt + 1) }
  else s

/-- Model of `MosfetMotor::is_rotating`. -/
def is_rotating (s : Motor) : Bool := !s.no_spin

/-- The interrupt handler attached to the encoder pin in the constructor. -/
def handler (c : Config) (s : Motor) : Motor :=
  if is_rotating s then
    { s with rotary_count := toUL c ((s.rotary_count : Int) + 1) }
  else s

/-- Model of `MosfetMotor::spin_detect`; `init_ms` is the reading of `millis()`
in the static initialiser. -/
def spin_detect (c : Config) (ms init_ms : Nat) (s : Motor) : Motor :=
  let b : Baseline :=
    match s.spin_detect_statics with
    | some b => b
    | none => Baseline.mk s.rotary_count init_ms
  let diff := get_period c b.last_spin_tick ms
  if diff ≥ c.SPIN_TIMEOUT then
    let s1 := if b.last_rotary_count = s.rotary_count then { s with no_spin := true } else s
    { s1 with spin_detect_statics := some (Baseline.mk s1.rotary_count ms) }
  else
    { s with spin_detect_statics := some b }

/-- Model of `MosfetMotor::stall_detect`; `init_ms` is the reading of `millis()`
in the static initialiser. -/
def stall_detect (c : Config) (ms init_ms : Nat) (s : Motor) : Motor :=
  let b : Baseline :=
    match s.stall_detect_statics with
    | some b => b
    | none => Baseline.mk s.rotary_count init_ms
  let diff := get_period c b.last_spin_tick ms
  if diff ≥ s.stall_timeout then
    if b.last_rotary_count = s.rotary_count then
      { set_speed 0 s with stall_detect_statics := some (Baseline.mk 0 ms) }
    else
      { s with stall_detect_statics := some (Baseline.mk s.rotary_count ms) }
  else
    { s with stall_detect_statics := some b }

/-- Model of `MosfetMotor::spin_down`; `init_ms` is the reading of `millis()`
in the static initialiser. -/
def spin_down (c : Config) (ms init_ms : Nat) (s : Motor) : Motor :=
  let last_slow_tick : Nat :=
    match s.last_slow_tick with
    | some t => t
    | none => init_ms
  let s0 := { s with last_slow_tick := some last_slow_tick }
  let diff := get_period c last_slow_tick ms
  let remaining_count := get_remaining_evolutions c s0
  if remaining_count ≤ c.EVOLUTION_OFFSET then
    let s1 := set_speed 0 s0
    { s1 with rotary_count := toUL c ((s1.rotary_count_end : Int) * c.EVOLUTION) }
  else if remaining_count ≤ c.EVOLUTION then
    set_speed c.MIN_SPEED s0
  else if remaining_count ≤ 2 * c.EVOLUTION ∧ diff ≥ 20 then
    let s1 := if (s0.speed : Int) - c.STEP_SPEED > c.MIN_SPEED then decrease_speed c s0 else s0
    { s1 with last_slow_tick := some ms }
  else s0

/-- Model of `MosfetMotor::spin_up`; `init_ms` is the reading of `millis()`
in the static initialiser. -/
def spin_up (c : Config) (ms init_ms : Nat) (s : Motor) : Motor :=
  let last_inc_tick : Nat :=
    match s.last_inc_tick with
    | some t => t
    | none => init_ms
  let s0 := { s with last_inc_tick := some last_inc_tick }
  let diff := get_period c last_inc_tick ms
  let remaining_count := get_remaining_evolutions c s0
  if remaining_count > 2 * c.EVOLUTION ∧ diff ≥ c.SPINUP_TIMEOUT then
    { increase_speed c s0 with last_inc_tick := some ms }
  else s0

/-- Model of `MosfetMotor::cycle`.  The `switch` falls through from `Auto` into
`Semi`; `Manual` matches no label. -/
def cycle (c : Config) (k : Clock) (s : Motor) : Motor :=
  let now := k.now
  if get_state s = MotorState.OFF then
    spin_detect c now k.spin_detect_millis s
  else if get_state s = MotorState.ON then
    let s1 := if s.stall_timeout ≠ 0 then stall_detect c now k.stall_detect_millis s else s
    if s1.rotary_count_end ≠ 0 then
      match s1.profile with
      | PROFILE.Auto =>
          spin_down c now k.spin_down_millis (spin_up c now k.spin_up_millis s1)
      | PROFILE.Semi => spin_down c now k.spin_down_millis s1
      | PROFILE.Manual => s1
    else s1
  else s

/-- The state after `n` successive calls of `increase_speed`. -/
def increase_speed_n (c : Config) : Nat → Motor → Motor
  | 0, s => s
  | n + 1, s => increase_speed_n c n (increase_speed c s)

/-- A 32-bit configuration with the constants of the worked example. -/
def exampleConfig : Config :=
  { ULONG_BITS := 32, MIN_SPEED := 50, MAX_SPEED := 255, STEP_SPEED := 5,
    EVOLUTION := 100, EVOLUTION_OFFSET := 10, SPIN_TIMEOUT := 1000,
    SPINUP_TIMEOUT := 100, MIN_STALL := 100, MAX_STALL := 1000, STEP_STALL := 100 }

/-- A freshly constructed motor: everything zero, `Manual`, statics not yet
initialised. -/
def initMotor : Motor :=
  { speed := 0, rotary_count := 0, rotary_count_end := 0, stall_timeout := 0,
    profile := PROFILE.Manual, no_spin := false, spin_detect_statics := none,
    stall_detect_statics := none, last_slow_tick := none, last_inc_tick := none }

/-- The state `cycle` hands to the ramp controller: the input after the stall
detector has run, if stall detection is enabled. -/
def afterStall (c : Config) (k : Clock) (s : Motor) : Motor :=
  if s.stall_timeout ≠ 0 then stall_detect c k.now k.stall_detect_millis s else s

/-- The worked example: `EVOLUTION = 100`, `EVOLUTION_OFFSET = 10`, target `3`,
`rotary_count = 290`, motor running at speed `100` under `Semi`. -/
def nearTargetMotor : Motor :=
  { initMotor with speed := 100, rotary_count := 290, rotary_count_end := 3,
                   profile := PROFILE.Semi }

/-- Clock readings of a call of `cycle()` at time `1000`. -/
def clockAt1000 : Clock :=
  { now := 1000, spin_detect_millis := 1000, stall_detect_millis := 1000,
    spin_up_millis := 1000, spin_down_millis := 1000 }

/-- A motor running at speed `100` under `Semi`, 50 pulses short of its target of
`3` evolutions, whose stall detector sampled the same count `250` at time `0`;
the stall window is `500`. -/
def stalledMotor : Motor :=
  { initMotor with speed := 100, rotary_count := 250, rotary_count_end := 3,
                   stall_timeout := 500, profile := PROFILE.Semi,
                   stall_detect_statics := some (Baseline.mk 250 0) }

/-- A motor running at speed `55 = MIN_SPEED + STEP_SPEED` of the example. -/
def slowMotor : Motor := { initMotor with speed := 55 }

/-- A motor that is off and was found stationary by the no-spin detector. -/
def restingMotor : Motor := { initMotor with no_spin := true }

/-- Quotient rounded up, `⌈a / b⌉`. -/
def ceilDiv (a b : Nat) : Nat := (a + b - 1) / b

/-- The example constants with a step of `10`, which does not divide
`MAX_SPEED - MIN_SPEED = 205`. -/
def stepTenConfig : Config := { exampleConfig with STEP_SPEED := 10 }

/-- A motor running at the minimum speed `50` of the example. -/
def minSpeedMotor : Motor := { initMotor with speed := 50 }

/-- The values of `stall_timeout` reachable by stepping from `0`: `0` itself and
`MIN_STALL + k * STEP_STALL` up to `MAX_STALL`. -/
def StallGrid (c : Config) (t : Nat) : Prop :=
  t = 0 ∨ (c.MIN_STALL ≤ t ∧ t ≤ c.MAX_STALL ∧ c.STEP_STALL ∣ t - c.MIN_STALL)

/-- The example constants with a stall step of `250`, larger than `MIN_STALL`. -/
def wideStepConfig : Config := { exampleConfig with STEP_STALL := 250 }

/-- A motor whose stall window is `900`, on the step grid of the example. -/
def gridMotor : Motor := { initMotor with stall_timeout := 900 }

/-- The value of the static `last_slow_tick` that a call of `spin_down` works
with: the stored one, or the reading of its initialiser on the first call. -/
def slowTick (s : Motor) (init_ms : Nat) : Nat :=
  match s.last_slow_tick with
  | some t => t
  | none => init_ms

/-- The value of the static `last_inc_tick` that a call of `spin_up` works with. -/
def incTick (s : Motor) (init_ms : Nat) : Nat :=
  match s.last_inc_tick with
  | some t => t
  | none => init_ms

/-- One event of the control loop: a command, an encoder edge, or a call of
`cycle()` with its clock readings. -/
inductive Op where
  | toggle
  | set_speed (v : Nat)
  | reset
  | edge
  | cycle (k : Clock)
  deriving DecidableEq, Repr

/-- Effect of one event on the motor. -/
def step (c : Config) (s : Motor) : Op → Motor
  | Op.toggle => toggle c s
  | Op.set_speed v => set_speed v s
  | Op.reset => reset s
  | Op.edge => handler c s
  | Op.cycle k => cycle c k s

/-- Effect of a sequence of events, oldest first. -/
def run (c : Config) (s : Motor) (ops : List Op) : Motor :=
  ops.foldl (step c) s

/-- Clock readings of a call of `cycle()` at time `t`, every reading equal to `t`. -/
def clockAt (t : Nat) : Clock :=
  { now := t, spin_detect_millis := t, stall_detect_millis := t,
    spin_up_millis := t, spin_down_millis := t }

/-- A freshly constructed motor with a stall window of `500`. -/
def freshStallMotor : Motor := { initMotor with stall_timeout := 500 }

/-- A short run without any encoder pulse: switched on, one `cycle()` at time `0`,
switched off, one `cycle()` at time `10000` while off. -/
def offOps : List Op :=
  [Op.toggle, Op.cycle (clockAt 0), Op.toggle, Op.cycle (clockAt 10000)]

/-- The run `offOps` followed by switching the motor on again. -/
def restartOps : List Op := offOps ++ [Op.toggle]

/-- A motor running at speed `100` under `Manual` with stall detection off. -/
def manualMotor : Motor :=
  { initMotor with speed := 100, rotary_count := 290, rotary_count_end := 3 }

/-- A motor running at speed `100` under `Auto`, `250` pulses short of its target. -/
def autoMotor : Motor :=
  { initMotor with speed := 100, rotary_count := 50, rotary_count_end := 3,
                   profile := PROFILE.Auto }

/-- A motor running at speed `100`, `150` pulses short of its target, whose last
deceleration step was taken at time `0`. -/
def decelMotor : Motor :=
  { initMotor with speed := 100, rotary_count := 150, rotary_count_end := 3,
                   profile := PROFILE.Semi, last_slow_tick := some 0 }

/-- The motor `decelMotor` with the last deceleration step taken at time
`2^32 - 10`, ten units before the 32-bit clock wraps. -/
def wrapMotor : Motor := { decelMotor with last_slow_tick := some 4294967286 }

/-- The motor `decelMotor` before the first call of `spin_down`. -/
def firstCallMotor : Motor := { decelMotor with last_slow_tick := none }

/-! ## Fixed-width conversions -/

theorem two_pow_pos_int (n : Nat) : (0 : Int) < (2 : Int) ^ n := by positivity

theorem toUL_of_nonneg_lt (c : Config) (x : Int) (h0 : 0 ≤ x)
    (h1 : x < (2 : Int) ^ c.ULONG_BITS) : (toUL c x : Int) = x := by
  unfold toUL
  rw [Int.emod_eq_of_lt h0 h1]
  exact Int.toNat_of_nonneg h0

theorem toUL_natCast (c : Config) (n : Nat) (h : n < 2 ^ c.ULONG_BITS) :
    toUL c (n : Int) = n := by
  have h1 : ((n : Int)) < (2 : Int) ^ c.ULONG_BITS := by exact_mod_cast h
  have := toUL_of_nonneg_lt c n (Int.natCast_nonneg n) h1
  exact_mod_cast this

theorem toUL_lt (c : Config) (x : Int) : toUL c x < 2 ^ c.ULONG_BITS := by
  unfold toUL
  have hp := two_pow_pos_int c.ULONG_BITS
  have h1 : x % (2 : Int) ^ c.ULONG_BITS < (2 : Int) ^ c.ULONG_BITS := Int.emod_lt_of_pos x hp
  have h0 : 0 ≤ x % (2 : Int) ^ c.ULONG_BITS := Int.emod_nonneg x (ne_of_gt hp)
  have h2 : ((x % (2 : Int) ^ c.ULONG_BITS).toNat : Int) < ((2 ^ c.ULONG_BITS : Nat) : Int) := by
    rw [Int.toNat_of_nonneg h0]; push_cast; exact h1
  exact_mod_cast h2

theorem ULONG_MAX_succ (c : Config) : ULONG_MAX c + 1 = 2 ^ c.ULONG_BITS := by
  unfold ULONG_MAX
  have : 0 < 2 ^ c.ULONG_BITS := Nat.pow_pos (by decide)
  omega

theorem toU8_of_lt (x : Int) (h0 : 0 ≤ x) (h1 : x < 256) : (toU8 x : Int) = x := by
  unfold toU8
  rw [Int.emod_eq_of_lt h0 h1]
  exact Int.toNat_of_nonneg h0

theorem toU8_natCast (n : Nat) (h : n < 256) : toU8 (n : Int) = n := by
  have := toU8_of_lt n (Int.natCast_nonneg n) (by exact_mod_cast h)
  exact_mod_cast this

theorem toU8_zero : toU8 0 = 0 := by decide

theorem toU16_of_lt (x : Int) (h0 : 0 ≤ x) (h1 : x < 65536) : (toU16 x : Int) = x := by
  unfold toU16
  rw [Int.emod_eq_of_lt h0 h1]
  exact Int.toNat_of_nonneg h0

theorem toU16_natCast (n : Nat) (h : n < 65536) : toU16 (n : Int) = n := by
  have := toU16_of_lt n (Int.natCast_nonneg n) (by exact_mod_cast h)
  exact_mod_cast this

/-! ## The period utility -/

theorem get_period_of_gt (c : Config) (last now : Nat) (hl : last < 2 ^ c.ULONG_BITS)
    (h : last > now) : get_period c last now = (ULONG_MAX c - last) + now := by
  have hs := ULONG_MAX_succ c
  unfold get_period
  rw [if_pos h]
  have e : ((ULONG_MAX c : Int) - last) + now = (((ULONG_MAX c - last) + now : Nat) : Int) := by
    push_cast [Nat.cast_sub (show last ≤ ULONG_MAX c by omega)]
    ring
  rw [e]
  exact toUL_natCast c _ (by omega)

theorem get_period_of_le (c : Config) (last now : Nat) (hn : now < 2 ^ c.ULONG_BITS)
    (h : last ≤ now) : get_period c last now = now - last := by
  unfold get_period
  rw [if_neg (by omega)]
  have e : (now : Int) - last = ((now - last : Nat) : Int) := by
    push_cast [Nat.cast_sub h]
    ring
  rw [e]
  exact toUL_natCast c _ (by omega)

/-- C4. For all `unsigned long` values `last` and `now`, `get_period last now` is
`(ULONG_MAX - last) + now` when `last > now` and `now - last` when `last ≤ now`;
in the first case neither `ULONG_MAX - last` underflows nor the sum exceeds
`ULONG_MAX`, in the second the subtraction does not underflow. -/
theorem get_period_formula (c : Config) (last now : Nat)
    (hl : last < 2 ^ c.ULONG_BITS) (hn : now < 2 ^ c.ULONG_BITS) :
    (last > now →
      get_period c last now = (ULONG_MAX c - last) + now ∧
      last ≤ ULONG_MAX c ∧ (ULONG_MAX c - last) + now ≤ ULONG_MAX c ∧
      (get_period c last now : Int) = ((ULONG_MAX c : Int) - last) + now) ∧
    (last ≤ now →
      get_period c last now = now - last ∧
      (get_period c last now : Int) = (now : Int) - last) := by
  have hs := ULONG_MAX_succ c
  constructor
  · intro h
    have e := get_period_of_gt c last now hl h
    refine ⟨e, by omega, by omega, ?_⟩
    rw [e]
    push_cast [Nat.cast_sub (show last ≤ ULONG_MAX c by omega)]
    ring
  · intro h
    have e := get_period_of_le c last now hn h
    refine ⟨e, ?_⟩
    rw [e]
    push_cast [Nat.cast_sub h]
    ring

theorem get_period_formula_witness :
    (7 > 3 → get_period exampleConfig 7 3 = (ULONG_MAX exampleConfig - 7) + 3 ∧
      7 ≤ ULONG_MAX exampleConfig ∧
      (ULONG_MAX exampleConfig - 7) + 3 ≤ ULONG_MAX exampleConfig ∧
      (get_period exampleConfig 7 3 : Int)
        = ((ULONG_MAX exampleConfig : Int) - (7 : Nat)) + (3 : Nat)) ∧
    (7 ≤ 3 → get_period exampleConfig 7 3 = 3 - 7 ∧
      (get_period exampleConfig 7 3 : Int) = ((3 : Nat) : Int) - (7 : Nat)) :=
  get_period_formula exampleConfig 7 3 (by decide) (by decide)

/-- C3 (the code falls short). One millisecond after the clock read `ULONG_MAX`
it reads `0`, and `get_period ULONG_MAX 0` is `0`, not the elapsed `1`. -/
theorem get_period_wrap_short_by_one :
    (ULONG_MAX exampleConfig + 1) % 2 ^ exampleConfig.ULONG_BITS = 0 ∧
    get_period exampleConfig (ULONG_MAX exampleConfig) 0 = 0 ∧
    get_period exampleConfig (ULONG_MAX exampleConfig) 0 ≠ 1 := by
  decide

/-- Across a wraparound `get_period` returns one less than the elapsed time,
whatever the width of the clock. -/
theorem get_period_across_wrap (c : Config) (t d : Nat) (ht : t < 2 ^ c.ULONG_BITS)
    (hd : d < 2 ^ c.ULONG_BITS) (hw : 2 ^ c.ULONG_BITS ≤ t + d) :
    get_period c t ((t + d) % 2 ^ c.ULONG_BITS) = d - 1 := by
  have hs := ULONG_MAX_succ c
  have hm : (t + d) % 2 ^ c.ULONG_BITS = t + d - 2 ^ c.ULONG_BITS := by
    rw [Nat.mod_eq_sub_mod hw]
    exact Nat.mod_eq_of_lt (by omega)
  rw [hm, get_period_of_gt c t _ ht (by omega)]
  omega

/-- Without a wraparound `get_period` returns the elapsed time. -/
theorem get_period_no_wrap (c : Config) (t d : Nat) (hw : t + d < 2 ^ c.ULONG_BITS) :
    get_period c t ((t + d) % 2 ^ c.ULONG_BITS) = d := by
  rw [Nat.mod_eq_of_lt hw, get_period_of_le c t _ hw (by omega)]
  omega

/-! ## Frame lemmas: which fields each operation touches -/

@[simp]
theorem set_speed_speed (v : Int) (s : Motor) : (set_speed v s).speed = toU8 v := by
  unfold set_speed; simp

@[simp]
theorem set_speed_rotary_count (v : Int) (s : Motor) :
    (set_speed v s).rotary_count = s.rotary_count := by
  unfold set_speed; dsimp only; split <;> rfl

@[simp]
theorem set_speed_rotary_count_end (v : Int) (s : Motor) :
    (set_speed v s).rotary_count_end = s.rotary_count_end := by
  unfold set_speed; dsimp only; split <;> rfl

@[simp]
theorem set_speed_profile (v : Int) (s : Motor) :
    (set_speed v s).profile = s.profile := by
  unfold set_speed; dsimp only; split <;> rfl

@[simp]
theorem set_speed_stall_timeout (v : Int) (s : Motor) :
    (set_speed v s).stall_timeout = s.stall_timeout := by
  unfold set_speed; dsimp only; split <;> rfl

theorem set_speed_no_spin (v : Int) (s : Motor) :
    (set_speed v s).no_spin = if toU8 v ≠ 0 then false else s.no_spin := by
  unfold set_speed; dsimp only; split <;> rfl

@[simp]
theorem increase_speed_rotary_count (c : Config) (s : Motor) :
    (increase_speed c s).rotary_count = s.rotary_count := by
  unfold increase_speed; split <;> simp

@[simp]
theorem increase_speed_rotary_count_end (c : Config) (s : Motor) :
    (increase_speed c s).rotary_count_end = s.rotary_count_end := by
  unfold increase_speed; split <;> simp

@[simp]
theorem increase_speed_profile (c : Config) (s : Motor) :
    (increase_speed c s).profile = s.profile := by
  unfold increase_speed; split <;> simp

@[simp]
theorem decrease_speed_rotary_count (c : Config) (s : Motor) :
    (decrease_speed c s).rotary_count = s.rotary_count := by
  unfold decrease_speed; split <;> [split; skip] <;> simp

@[simp]
theorem decrease_speed_rotary_count_end (c : Config) (s : Motor) :
    (decrease_speed c s).rotary_count_end = s.rotary_count_end := by
  unfold decrease_speed; split <;> [split; skip] <;> simp

@[simp]
theorem stall_detect_rotary_count (c : Config) (ms i : Nat) (s : Motor) :
    (stall_detect c ms i s).rotary_count = s.rotary_count := by
  unfold stall_detect; dsimp only; split <;> [split; skip] <;> simp

@[simp]
theorem stall_detect_rotary_count_end (c : Config) (ms i : Nat) (s : Motor) :
    (stall_detect c ms i s).rotary_count_end = s.rotary_count_end := by
  unfold stall_detect; dsimp only; split <;> [split; skip] <;> simp

@[simp]
theorem stall_detect_profile (c : Config) (ms i : Nat) (s : Motor) :
    (stall_detect c ms i s).profile = s.profile := by
  unfold stall_detect; dsimp only; split <;> [split; skip] <;> simp

@[simp]
theorem spin_up_rotary_count (c : Config) (ms i : Nat) (s : Motor) :
    (spin_up c ms i s).rotary_count = s.rotary_count := by
  unfold spin_up; dsimp only; split <;> simp

@[simp]
theorem spin_up_rotary_count_end (c : Config) (ms i : Nat) (s : Motor) :
    (spin_up c ms i s).rotary_count_end = s.rotary_count_end := by
  unfold spin_up; dsimp only; split <;> simp

@[simp]
theorem spin_up_profile (c : Config) (ms i : Nat) (s : Motor) :
    (spin_up c ms i s).profile = s.profile := by
  unfold spin_up; dsimp only; split <;> simp

/-- The remaining count reads only `rotary_count` and `rotary_count_end`. -/
theorem get_remaining_evolutions_congr (c : Config) (s s2 : Motor)
    (h1 : s2.rotary_count = s.rotary_count) (h2 : s2.rotary_count_end = s.rotary_count_end) :
    get_remaining_evolutions c s2 = get_remaining_evolutions c s := by
  unfold get_remaining_evolutions get_evolution
  rw [h1, h2]

/-! ## Rotation tracking -/

/-- Closed form of `get_remaining_evolutions` when the target fits the counter. -/
theorem get_remaining_evolutions_eq (c : Config) (s : Motor) (hE : 0 < c.EVOLUTION)
    (hov : s.rotary_count_end * c.EVOLUTION < 2 ^ c.ULONG_BITS) :
    get_remaining_evolutions c s =
      if s.rotary_count_end = 0 ∨ s.rotary_count_end * c.EVOLUTION ≤ s.rotary_count then 0
      else s.rotary_count_end * c.EVOLUTION - s.rotary_count := by
  unfold get_remaining_evolutions get_evolution
  have hiff : s.rotary_count / c.EVOLUTION ≥ s.rotary_count_end ↔
      s.rotary_count_end * c.EVOLUTION ≤ s.rotary_count := Nat.le_div_iff_mul_le hE
  by_cases h : s.rotary_count_end = 0 ∨ s.rotary_count_end * c.EVOLUTION ≤ s.rotary_count
  · rw [if_pos h, if_pos (by rcases h with h | h; exact Or.inl h; exact Or.inr (hiff.mpr h))]
  · have h2 : ¬(s.rotary_count_end = 0 ∨ s.rotary_count / c.EVOLUTION ≥ s.rotary_count_end) := by
      intro h3
      rcases h3 with h3 | h3
      · exact h (Or.inl h3)
      · exact h (Or.inr (hiff.mp h3))
    rw [if_neg h, if_neg h2]
    have hlt : s.rotary_count < s.rotary_count_end * c.EVOLUTION := by
      by_contra h4; exact h (Or.inr (by omega))
    have e1 : toUL c ((s.rotary_count_end : Int) * c.EVOLUTION)
        = s.rotary_count_end * c.EVOLUTION := by
      have := toUL_natCast c (s.rotary_count_end * c.EVOLUTION) hov
      rw [← this]; push_cast; rfl
    rw [e1]
    have e2 : ((s.rotary_count_end * c.EVOLUTION : Nat) : Int) - s.rotary_count
        = ((s.rotary_count_end * c.EVOLUTION - s.rotary_count : Nat) : Int) := by
      rw [Nat.cast_sub (le_of_lt hlt)]
    rw [e2]
    exact toUL_natCast c _ (by omega)

/-- C9. With `EVOLUTION > 0` and `rotary_count_end * EVOLUTION` inside the counter,
`get_remaining_evolutions` is `0` when no target is set or the target is
reached or exceeded, and otherwise the strictly positive number of pulses
`rotary_count_end * EVOLUTION - rotary_count`, a subtraction that does not
underflow. -/
theorem get_remaining_evolutions_spec (c : Config) (s : Motor) (hE : 0 < c.EVOLUTION)
    (hov : s.rotary_count_end * c.EVOLUTION < 2 ^ c.ULONG_BITS) :
    ((s.rotary_count_end = 0 ∨ s.rotary_count ≥ s.rotary_count_end * c.EVOLUTION) →
      get_remaining_evolutions c s = 0) ∧
    (¬(s.rotary_count_end = 0 ∨ s.rotary_count ≥ s.rotary_count_end * c.EVOLUTION) →
      get_remaining_evolutions c s = s.rotary_count_end * c.EVOLUTION - s.rotary_count ∧
      0 < get_remaining_evolutions c s ∧
      s.rotary_count ≤ s.rotary_count_end * c.EVOLUTION ∧
      (get_remaining_evolutions c s : Int)
        = (s.rotary_count_end : Int) * c.EVOLUTION - s.rotary_count) := by
  have e := get_remaining_evolutions_eq c s hE hov
  constructor
  · intro h
    rw [e, if_pos h]
  · intro h
    rw [e, if_neg h]
    have hlt : s.rotary_count < s.rotary_count_end * c.EVOLUTION := by
      by_contra h4; exact h (Or.inr (by omega))
    refine ⟨rfl, by omega, by omega, ?_⟩
    rw [Nat.cast_sub (le_of_lt hlt)]
    push_cast; rfl

theorem get_remaining_evolutions_spec_witness :
    ((({ initMotor with rotary_count := 290, rotary_count_end := 3 } : Motor).rotary_count_end = 0
        ∨ ({ initMotor with rotary_count := 290, rotary_count_end := 3 } : Motor).rotary_count
          ≥ ({ initMotor with rotary_count := 290, rotary_count_end := 3 } : Motor).rotary_count_end
            * exampleConfig.EVOLUTION) →
      get_remaining_evolutions exampleConfig
        { initMotor with rotary_count := 290, rotary_count_end := 3 } = 0) ∧
    (¬(({ initMotor with rotary_count := 290, rotary_count_end := 3 } : Motor).rotary_count_end = 0
        ∨ ({ initMotor with rotary_count := 290, rotary_count_end := 3 } : Motor).rotary_count
          ≥ ({ initMotor with rotary_count := 290, rotary_count_end := 3 } : Motor).rotary_count_end
            * exampleConfig.EVOLUTION) →
      get_remaining_evolutions exampleConfig
          { initMotor with rotary_count := 290, rotary_count_end := 3 }
        = ({ initMotor with rotary_count := 290, rotary_count_end := 3 } : Motor).rotary_count_end
            * exampleConfig.EVOLUTION
          - ({ initMotor with rotary_count := 290, rotary_count_end := 3 } : Motor).rotary_count ∧
      0 < get_remaining_evolutions exampleConfig
          { initMotor with rotary_count := 290, rotary_count_end := 3 } ∧
      ({ initMotor with rotary_count := 290, rotary_count_end := 3 } : Motor).rotary_count
        ≤ ({ initMotor with rotary_count := 290, rotary_count_end := 3 } : Motor).rotary_count_end
            * exampleConfig.EVOLUTION ∧
      (get_remaining_evolutions exampleConfig
          { initMotor with rotary_count := 290, rotary_count_end := 3 } : Int)
        = (({ initMotor with rotary_count := 290, rotary_count_end := 3 } : Motor).rotary_count_end
              : Int) * exampleConfig.EVOLUTION
          - ({ initMotor with rotary_count := 290, rotary_count_end := 3 } : Motor).rotary_count) :=
  get_remaining_evolutions_spec exampleConfig
    { initMotor with rotary_count := 290, rotary_count_end := 3 } (by decide) (by decide)

/-! ## The cycle dispatcher while the motor is on -/

/-- The branch of `cycle` taken when the motor is on. -/
theorem cycle_of_on (c : Config) (k : Clock) (s : Motor) (h : s.speed ≠ 0) :
    cycle c k s =
      if (afterStall c k s).rotary_count_end ≠ 0 then
        match (afterStall c k s).profile with
        | PROFILE.Auto =>
            spin_down c k.now k.spin_down_millis
              (spin_up c k.now k.spin_up_millis (afterStall c k s))
        | PROFILE.Semi => spin_down c k.now k.spin_down_millis (afterStall c k s)
        | PROFILE.Manual => afterStall c k s
      else afterStall c k s := by
  unfold cycle afterStall get_state
  simp [h]

/-- The branch of `cycle` taken when the motor is off. -/
theorem cycle_of_off (c : Config) (k : Clock) (s : Motor) (h : s.speed = 0) :
    cycle c k s = spin_detect c k.now k.spin_detect_millis s := by
  unfold cycle get_state
  simp [h]

@[simp]
theorem afterStall_rotary_count (c : Config) (k : Clock) (s : Motor) :
    (afterStall c k s).rotary_count = s.rotary_count := by
  unfold afterStall; split <;> simp

@[simp]
theorem afterStall_rotary_count_end (c : Config) (k : Clock) (s : Motor) :
    (afterStall c k s).rotary_count_end = s.rotary_count_end := by
  unfold afterStall; split <;> simp

@[simp]
theorem afterStall_profile (c : Config) (k : Clock) (s : Motor) :
    (afterStall c k s).profile = s.profile := by
  unfold afterStall; split <;> simp

/-- In its first zone `spin_down` switches the motor off and snaps the count to
the target. -/
theorem spin_down_stop (c : Config) (ms i : Nat) (s : Motor)
    (h : get_remaining_evolutions c s ≤ c.EVOLUTION_OFFSET) :
    (spin_down c ms i s).speed = 0 ∧
    (spin_down c ms i s).rotary_count = toUL c ((s.rotary_count_end : Int) * c.EVOLUTION) := by
  have e : ∀ t, get_remaining_evolutions c { s with last_slow_tick := t }
      = get_remaining_evolutions c s := fun _ => rfl
  unfold spin_down
  dsimp only
  rw [e, if_pos h]
  simp [toU8_zero]

/-- C2. With the motor on, profile `Semi` or `Auto`, a target `N ≠ 0` whose
pulse count `N * EVOLUTION` fits the counter and
`rotary_count + EVOLUTION_OFFSET ≥ N * EVOLUTION`, one `cycle()` at any time
leaves `speed = 0` and `rotary_count = N * EVOLUTION`.  (`EVOLUTION` is a
divisor in the source, hence nonzero.) -/
theorem cycle_ramp_to_stop (c : Config) (k : Clock) (s : Motor)
    (hE : 0 < c.EVOLUTION) (hon : s.speed ≠ 0)
    (hp : s.profile = PROFILE.Semi ∨ s.profile = PROFILE.Auto)
    (hN : s.rotary_count_end ≠ 0)
    (hov : s.rotary_count_end * c.EVOLUTION < 2 ^ c.ULONG_BITS)
    (hreach : s.rotary_count + c.EVOLUTION_OFFSET ≥ s.rotary_count_end * c.EVOLUTION) :
    (cycle c k s).speed = 0 ∧
    (cycle c k s).rotary_count = s.rotary_count_end * c.EVOLUTION := by
  have hrem : ∀ s2 : Motor, s2.rotary_count = s.rotary_count →
      s2.rotary_count_end = s.rotary_count_end →
      get_remaining_evolutions c s2 ≤ c.EVOLUTION_OFFSET := by
    intro s2 h1 h2
    rw [get_remaining_evolutions_congr c s s2 h1 h2, get_remaining_evolutions_eq c s hE hov]
    split <;> omega
  have hto : toUL c ((s.rotary_count_end : Int) * c.EVOLUTION)
      = s.rotary_count_end * c.EVOLUTION := by
    have := toUL_natCast c (s.rotary_count_end * c.EVOLUTION) hov
    rw [← this]; push_cast; rfl
  rw [cycle_of_on c k s hon, afterStall_rotary_count_end, if_pos hN, afterStall_profile]
  rcases hp with hp | hp
  · rw [hp]
    dsimp only
    have := spin_down_stop c k.now k.spin_down_millis (afterStall c k s)
      (hrem _ (by simp) (by simp))
    rw [afterStall_rotary_count_end, hto] at this
    exact this
  · rw [hp]
    dsimp only
    have := spin_down_stop c k.now k.spin_down_millis
      (spin_up c k.now k.spin_up_millis (afterStall c k s)) (hrem _ (by simp) (by simp))
    rw [spin_up_rotary_count_end, afterStall_rotary_count_end, hto] at this
    exact this

theorem cycle_ramp_to_stop_witness :
    (cycle exampleConfig clockAt1000 nearTargetMotor).speed = 0 ∧
    (cycle exampleConfig clockAt1000 nearTargetMotor).rotary_count
      = nearTargetMotor.rotary_count_end * exampleConfig.EVOLUTION :=
  cycle_ramp_to_stop exampleConfig clockAt1000 nearTargetMotor (by decide) (by decide)
    (by decide) (by decide) (by decide) (by decide)

/-! ## Stall cutoff -/

/-- The stall detector alone switches the motor off once its window has expired
without a pulse. -/
theorem stall_detect_cutoff (c : Config) (ms i : Nat) (s : Motor) (b : Baseline)
    (hb : s.stall_detect_statics = some b) (hc : b.last_rotary_count = s.rotary_count)
    (ht : get_period c b.last_spin_tick ms ≥ s.stall_timeout) :
    (stall_detect c ms i s).speed = 0 := by
  unfold stall_detect
  rw [hb]
  dsimp only
  rw [if_pos ht, if_pos hc]
  simp [toU8_zero]

/-- When the ramp controller does not run (no target, or profile `Manual`), an
expired stall window without a pulse leaves the motor off after `cycle()`. -/
theorem cycle_stall_cutoff_no_ramp (c : Config) (k : Clock) (s : Motor) (b : Baseline)
    (hon : s.speed ≠ 0) (hT : s.stall_timeout ≠ 0)
    (hb : s.stall_detect_statics = some b) (hc : b.last_rotary_count = s.rotary_count)
    (ht : get_period c b.last_spin_tick k.now ≥ s.stall_timeout)
    (hr : s.rotary_count_end = 0 ∨ s.profile = PROFILE.Manual) :
    (cycle c k s).speed = 0 := by
  have h0 : (afterStall c k s).speed = 0 := by
    unfold afterStall
    rw [if_pos hT]
    exact stall_detect_cutoff c k.now k.stall_detect_millis s b hb hc ht
  rw [cycle_of_on c k s hon, afterStall_rotary_count_end, afterStall_profile]
  rcases hr with hr | hr
  · rw [if_neg (by simpa using hr)]
    exact h0
  · rw [hr]
    split <;> exact h0

/-- C1 (the code falls short). On `stalledMotor` at time `1000` the premises of the
stall cutoff hold and `stall_detect` does force the speed to `0`, but the same
`cycle()` then runs `spin_down`, whose final-approach branch sets the speed
to `MIN_SPEED`: the motor is `ON` after the call. -/
theorem cycle_stall_cutoff_undone :
    stalledMotor.speed ≠ 0 ∧ stalledMotor.stall_timeout = 500 ∧
    stalledMotor.stall_detect_statics = some (Baseline.mk stalledMotor.rotary_count 0) ∧
    get_period exampleConfig 0 clockAt1000.now ≥ stalledMotor.stall_timeout ∧
    (stall_detect exampleConfig clockAt1000.now clockAt1000.stall_detect_millis
      stalledMotor).speed = 0 ∧
    (cycle exampleConfig clockAt1000 stalledMotor).speed = exampleConfig.MIN_SPEED ∧
    get_state (cycle exampleConfig clockAt1000 stalledMotor) = MotorState.ON := by
  decide

/-! ## Speed stepping -/

/-- C8. For every `uint8_t` speed, `decrease_speed` leaves the state unchanged when
the speed is `0`; sets the speed to `speed - STEP_SPEED` (no underflow) when
`speed - STEP_SPEED > MIN_SPEED` as integers; and otherwise sets it to `0`.
The resulting speed is never in `1..MIN_SPEED`, and from
`MIN_SPEED + STEP_SPEED` the result is `0`. -/
theorem decrease_speed_spec (c : Config) (s : Motor) (h8 : s.speed < 256) :
    (s.speed = 0 → decrease_speed c s = s) ∧
    ((s.speed : Int) - c.STEP_SPEED > c.MIN_SPEED →
      (decrease_speed c s).speed = s.speed - c.STEP_SPEED ∧ c.STEP_SPEED ≤ s.speed ∧
      ((decrease_speed c s).speed : Int) = (s.speed : Int) - c.STEP_SPEED) ∧
    (s.speed ≠ 0 → ¬((s.speed : Int) - c.STEP_SPEED > c.MIN_SPEED) →
      (decrease_speed c s).speed = 0) ∧
    ¬(1 ≤ (decrease_speed c s).speed ∧ (decrease_speed c s).speed ≤ c.MIN_SPEED) ∧
    (s.speed = c.MIN_SPEED + c.STEP_SPEED → (decrease_speed c s).speed = 0) := by
  have hstep : (s.speed : Int) - c.STEP_SPEED > c.MIN_SPEED →
      (decrease_speed c s).speed = s.speed - c.STEP_SPEED ∧ c.STEP_SPEED ≤ s.speed ∧
      ((decrease_speed c s).speed : Int) = (s.speed : Int) - c.STEP_SPEED := by
    intro h
    have hpos : s.speed > 0 := by omega
    have hz : (toU8 ((s.speed : Int) - c.STEP_SPEED) : Int) = (s.speed : Int) - c.STEP_SPEED :=
      toU8_of_lt _ (by omega) (by omega)
    unfold decrease_speed
    rw [if_pos hpos, if_pos h, set_speed_speed]
    refine ⟨by omega, by omega, hz⟩
  have hzero : s.speed ≠ 0 → ¬((s.speed : Int) - c.STEP_SPEED > c.MIN_SPEED) →
      (decrease_speed c s).speed = 0 := by
    intro h1 h2
    unfold decrease_speed
    rw [if_pos (by omega), if_neg h2, set_speed_speed, toU8_zero]
  have hsame : s.speed = 0 → decrease_speed c s = s := by
    intro h
    unfold decrease_speed
    rw [if_neg (by omega)]
  refine ⟨hsame, hstep, hzero, ?_, ?_⟩
  · intro hr
    by_cases h0 : s.speed = 0
    · rw [hsame h0] at hr; omega
    · by_cases h1 : (s.speed : Int) - c.STEP_SPEED > c.MIN_SPEED
      · have := (hstep h1).2.2
        omega
      · rw [hzero h0 h1] at hr; omega
  · intro h
    by_cases h0 : s.speed = 0
    · rw [hsame h0]; exact h0
    · exact hzero h0 (by omega)

theorem decrease_speed_spec_witness :
    (slowMotor.speed = 0 → decrease_speed exampleConfig slowMotor = slowMotor) ∧
    ((slowMotor.speed : Int) - exampleConfig.STEP_SPEED > exampleConfig.MIN_SPEED →
      (decrease_speed exampleConfig slowMotor).speed
        = slowMotor.speed - exampleConfig.STEP_SPEED ∧
      exampleConfig.STEP_SPEED ≤ slowMotor.speed ∧
      ((decrease_speed exampleConfig slowMotor).speed : Int)
        = (slowMotor.speed : Int) - exampleConfig.STEP_SPEED) ∧
    (slowMotor.speed ≠ 0 →
      ¬((slowMotor.speed : Int) - exampleConfig.STEP_SPEED > exampleConfig.MIN_SPEED) →
      (decrease_speed exampleConfig slowMotor).speed = 0) ∧
    ¬(1 ≤ (decrease_speed exampleConfig slowMotor).speed ∧
      (decrease_speed exampleConfig slowMotor).speed ≤ exampleConfig.MIN_SPEED) ∧
    (slowMotor.speed = exampleConfig.MIN_SPEED + exampleConfig.STEP_SPEED →
      (decrease_speed exampleConfig slowMotor).speed = 0) :=
  decrease_speed_spec exampleConfig slowMotor (by decide)

/-! ## The speed invariant -/

theorem SpeedOk_congr (c : Config) (s s2 : Motor) (h : s2.speed = s.speed)
    (hs : SpeedOk c s) : SpeedOk c s2 := by
  unfold SpeedOk at *
  rw [h]; exact hs

theorem SpeedOk_set_speed_zero (c : Config) (s : Motor) : SpeedOk c (set_speed 0 s) := by
  unfold SpeedOk
  left
  rw [set_speed_speed, toU8_zero]

theorem SpeedOk_set_speed_min (c : Config) (s : Motor) (hM : c.MIN_SPEED ≤ c.MAX_SPEED)
    (h255 : c.MAX_SPEED ≤ 255) : SpeedOk c (set_speed c.MIN_SPEED s) := by
  unfold SpeedOk
  right
  rw [set_speed_speed, toU8_natCast c.MIN_SPEED (by omega)]
  omega

theorem SpeedOk_increase_speed (c : Config) (s : Motor) (h255 : c.MAX_SPEED ≤ 255)
    (hs : SpeedOk c s) : SpeedOk c (increase_speed c s) := by
  unfold increase_speed
  split
  · rename_i h
    unfold SpeedOk
    right
    have e : ((s.speed : Int) + c.STEP_SPEED) = ((s.speed + c.STEP_SPEED : Nat) : Int) := by
      push_cast; rfl
    rw [set_speed_speed, e, toU8_natCast _ (by omega)]
    omega
  · exact hs

theorem SpeedOk_decrease_speed (c : Config) (s : Motor) (h255 : c.MAX_SPEED ≤ 255)
    (hs : SpeedOk c s) : SpeedOk c (decrease_speed c s) := by
  unfold decrease_speed
  split
  · split
    · rename_i hpos h
      unfold SpeedOk at *
      right
      have hz : (toU8 ((s.speed : Int) - c.STEP_SPEED) : Int)
          = (s.speed : Int) - c.STEP_SPEED := toU8_of_lt _ (by omega) (by omega)
      rw [set_speed_speed]
      omega
    · exact SpeedOk_set_speed_zero c s
  · exact hs

theorem SpeedOk_toggle (c : Config) (s : Motor) (hM : c.MIN_SPEED ≤ c.MAX_SPEED)
    (h255 : c.MAX_SPEED ≤ 255) : SpeedOk c (toggle c s) := by
  unfold toggle
  split
  · exact SpeedOk_set_speed_zero c s
  · exact SpeedOk_set_speed_min c s hM h255

theorem SpeedOk_reset (c : Config) (s : Motor) : SpeedOk c (reset s) :=
  SpeedOk_congr c (set_speed 0 s) (reset s) rfl (SpeedOk_set_speed_zero c s)

theorem SpeedOk_spin_detect (c : Config) (ms i : Nat) (s : Motor) (hs : SpeedOk c s) :
    SpeedOk c (spin_detect c ms i s) := by
  refine SpeedOk_congr c s _ ?_ hs
  unfold spin_detect
  dsimp only
  split <;> [split; skip] <;> rfl

theorem SpeedOk_stall_detect (c : Config) (ms i : Nat) (s : Motor) (hs : SpeedOk c s) :
    SpeedOk c (stall_detect c ms i s) := by
  unfold stall_detect
  dsimp only
  split
  · split
    · exact SpeedOk_congr c (set_speed 0 s) _ rfl (SpeedOk_set_speed_zero c s)
    · exact SpeedOk_congr c s _ rfl hs
  · exact SpeedOk_congr c s _ rfl hs

theorem SpeedOk_spin_up (c : Config) (ms i : Nat) (s : Motor) (h255 : c.MAX_SPEED ≤ 255)
    (hs : SpeedOk c s) : SpeedOk c (spin_up c ms i s) := by
  unfold spin_up
  dsimp only
  split
  · exact SpeedOk_congr c (increase_speed c _) _ rfl
      (SpeedOk_increase_speed c _ h255 (SpeedOk_congr c s _ rfl hs))
  · exact SpeedOk_congr c s _ rfl hs

theorem SpeedOk_spin_down (c : Config) (ms i : Nat) (s : Motor)
    (hM : c.MIN_SPEED ≤ c.MAX_SPEED) (h255 : c.MAX_SPEED ≤ 255)
    (hs : SpeedOk c s) : SpeedOk c (spin_down c ms i s) := by
  unfold spin_down
  dsimp only
  split
  · unfold SpeedOk
    left
    simp [toU8_zero]
  · split
    · exact SpeedOk_set_speed_min c _ hM h255
    · split
      · split
        · exact SpeedOk_congr c (decrease_speed c _) _ rfl
            (SpeedOk_decrease_speed c _ h255 (SpeedOk_congr c s _ rfl hs))
        · exact SpeedOk_congr c s _ rfl hs
      · exact SpeedOk_congr c s _ rfl hs

theorem SpeedOk_afterStall (c : Config) (k : Clock) (s : Motor) (hs : SpeedOk c s) :
    SpeedOk c (afterStall c k s) := by
  unfold afterStall
  split
  · exact SpeedOk_stall_detect c _ _ s hs
  · exact hs

theorem SpeedOk_cycle (c : Config) (k : Clock) (s : Motor)
    (hM : c.MIN_SPEED ≤ c.MAX_SPEED) (h255 : c.MAX_SPEED ≤ 255)
    (hs : SpeedOk c s) : SpeedOk c (cycle c k s) := by
  by_cases hon : s.speed = 0
  · rw [cycle_of_off c k s hon]
    exact SpeedOk_spin_detect c _ _ s hs
  · have h1 := SpeedOk_afterStall c k s hs
    rw [cycle_of_on c k s hon]
    split
    · split
      · exact SpeedOk_spin_down c _ _ _ hM h255 (SpeedOk_spin_up c _ _ _ h255 h1)
      · exact SpeedOk_spin_down c _ _ _ hM h255 h1
      · exact h1
    · exact h1

/-- C5. With `0 < STEP_SPEED` and `0 < MIN_SPEED ≤ MAX_SPEED ≤ 255`, the predicate
`speed = 0 ∨ MIN_SPEED ≤ speed ≤ MAX_SPEED` is preserved by `increase_speed`,
`decrease_speed`, `toggle`, `reset` and by `cycle()` at any time, as well as
by each of `spin_detect`, `stall_detect`, `spin_up` and `spin_down` on its
own. -/
theorem speed_invariant_preserved (c : Config) (s : Motor)
    (_hS : 0 < c.STEP_SPEED) (_hm : 0 < c.MIN_SPEED) (hM : c.MIN_SPEED ≤ c.MAX_SPEED)
    (h255 : c.MAX_SPEED ≤ 255) (hs : SpeedOk c s) :
    SpeedOk c (increase_speed c s) ∧ SpeedOk c (decrease_speed c s) ∧
    SpeedOk c (toggle c s) ∧ SpeedOk c (reset s) ∧
    (∀ k : Clock, SpeedOk c (cycle c k s)) ∧
    (∀ ms i : Nat, SpeedOk c (spin_detect c ms i s) ∧ SpeedOk c (stall_detect c ms i s) ∧
      SpeedOk c (spin_up c ms i s) ∧ SpeedOk c (spin_down c ms i s)) :=
  ⟨SpeedOk_increase_speed c s h255 hs, SpeedOk_decrease_speed c s h255 hs,
   SpeedOk_toggle c s hM h255, SpeedOk_reset c s,
   fun k => SpeedOk_cycle c k s hM h255 hs,
   fun ms i => ⟨SpeedOk_spin_detect c ms i s hs, SpeedOk_stall_detect c ms i s hs,
     SpeedOk_spin_up c ms i s h255 hs, SpeedOk_spin_down c ms i s hM h255 hs⟩⟩

theorem speed_invariant_preserved_witness :
    SpeedOk exampleConfig slowMotor ∧
    SpeedOk exampleConfig (increase_speed exampleConfig slowMotor) ∧
    SpeedOk exampleConfig (decrease_speed exampleConfig slowMotor) ∧
    SpeedOk exampleConfig (toggle exampleConfig slowMotor) ∧
    SpeedOk exampleConfig (reset slowMotor) ∧
    (∀ k : Clock, SpeedOk exampleConfig (cycle exampleConfig k slowMotor)) ∧
    (∀ ms i : Nat, SpeedOk exampleConfig (spin_detect exampleConfig ms i slowMotor) ∧
      SpeedOk exampleConfig (stall_detect exampleConfig ms i slowMotor) ∧
      SpeedOk exampleConfig (spin_up exampleConfig ms i slowMotor) ∧
      SpeedOk exampleConfig (spin_down exampleConfig ms i slowMotor)) :=
  ⟨Or.inr (by decide),
   speed_invariant_preserved exampleConfig slowMotor (by decide) (by decide) (by decide)
     (by decide) (Or.inr (by decide))⟩

/-! ## The no-spin flag -/

theorem spin_detect_off_sticky (c : Config) (ms i : Nat) (s : Motor)
    (h0 : s.speed = 0) (hn : s.no_spin = true) :
    (spin_detect c ms i s).no_spin = true ∧ (spin_detect c ms i s).speed = 0 := by
  unfold spin_detect
  dsimp only
  split <;> [split; skip] <;> exact ⟨by first | rfl | exact hn, h0⟩

/-- C6. From a state with `speed = 0` and `no_spin = true` (and `MIN_SPEED > 0`),
`cycle()` at any time, `reset`, `increase_speed`, `decrease_speed`, the
stop-target, stall-timeout and profile steps and an encoder edge all leave
`no_spin = true` and `speed = 0`; `set_speed` clears `no_spin` exactly when its
`uint8_t` argument is nonzero, and so does `toggle` through
`set_speed(MIN_SPEED)`. -/
theorem no_spin_sticky (c : Config) (s : Motor) (hm : 0 < c.MIN_SPEED)
    (h0 : s.speed = 0) (hn : s.no_spin = true) :
    (∀ k : Clock, (cycle c k s).no_spin = true ∧ (cycle c k s).speed = 0) ∧
    ((reset s).no_spin = true ∧ (reset s).speed = 0) ∧
    ((increase_speed c s).no_spin = true ∧ (increase_speed c s).speed = 0) ∧
    ((decrease_speed c s).no_spin = true ∧ (decrease_speed c s).speed = 0) ∧
    ((increase_stop_evolution c s).no_spin = true ∧ (increase_stop_evolution c s).speed = 0) ∧
    ((decrease_stop_evolution s).no_spin = true ∧ (decrease_stop_evolution s).speed = 0) ∧
    ((increase_stall_timeout c s).no_spin = true ∧ (increase_stall_timeout c s).speed = 0) ∧
    ((decrease_stall_timeout c s).no_spin = true ∧ (decrease_stall_timeout c s).speed = 0) ∧
    ((next_profile s).no_spin = true ∧ (next_profile s).speed = 0) ∧
    ((prev_profile s).no_spin = true ∧ (prev_profile s).speed = 0) ∧
    ((handler c s).no_spin = true ∧ (handler c s).speed = 0) ∧
    (∀ v : Int, (set_speed v s).no_spin = false ↔ toU8 v ≠ 0) ∧
    ((toggle c s).no_spin = false ↔ toU8 c.MIN_SPEED ≠ 0) := by
  have hset : ∀ v : Int, (set_speed v s).no_spin = false ↔ toU8 v ≠ 0 := by
    intro v
    rw [set_speed_no_spin]
    by_cases hv : toU8 v ≠ 0
    · simp [hv]
    · simp [hv, hn]
  refine ⟨?_, ?_, ?_, ?_, ?_, ?_, ?_, ?_, ?_, ?_, ?_, hset, ?_⟩
  · intro k
    rw [cycle_of_off c k s h0]
    exact spin_detect_off_sticky c _ _ s h0 hn
  · refine ⟨?_, by simp [reset, toU8_zero]⟩
    show (set_speed 0 s).no_spin = true
    rw [set_speed_no_spin]
    simp [toU8_zero, hn]
  · have : increase_speed c s = s := by
      unfold increase_speed
      rw [if_neg (by omega)]
    rw [this]; exact ⟨hn, h0⟩
  · have : decrease_speed c s = s := by
      unfold decrease_speed
      rw [if_neg (by omega)]
    rw [this]; exact ⟨hn, h0⟩
  · unfold increase_stop_evolution
    split <;> exact ⟨hn, h0⟩
  · unfold decrease_stop_evolution
    dsimp only
    split <;> exact ⟨hn, h0⟩
  · unfold increase_stall_timeout set_stall_timeout
    split <;> [skip; split] <;> exact ⟨hn, h0⟩
  · unfold decrease_stall_timeout set_stall_timeout
    split <;> [skip; split] <;> exact ⟨hn, h0⟩
  · unfold next_profile
    split <;> exact ⟨hn, h0⟩
  · unfold prev_profile
    split <;> exact ⟨hn, h0⟩
  · unfold handler is_rotating
    rw [hn]
    exact ⟨hn, h0⟩
  · unfold toggle get_state
    rw [if_neg (by simp [h0])]
    exact hset c.MIN_SPEED

theorem no_spin_sticky_witness :
    (∀ k : Clock, (cycle exampleConfig k restingMotor).no_spin = true ∧
      (cycle exampleConfig k restingMotor).speed = 0) ∧
    ((reset restingMotor).no_spin = true ∧ (reset restingMotor).speed = 0) ∧
    ((increase_speed exampleConfig restingMotor).no_spin = true ∧
      (increase_speed exampleConfig restingMotor).speed = 0) ∧
    ((decrease_speed exampleConfig restingMotor).no_spin = true ∧
      (decrease_speed exampleConfig restingMotor).speed = 0) ∧
    ((increase_stop_evolution exampleConfig restingMotor).no_spin = true ∧
      (increase_stop_evolution exampleConfig restingMotor).speed = 0) ∧
    ((decrease_stop_evolution restingMotor).no_spin = true ∧
      (decrease_stop_evolution restingMotor).speed = 0) ∧
    ((increase_stall_timeout exampleConfig restingMotor).no_spin = true ∧
      (increase_stall_timeout exampleConfig restingMotor).speed = 0) ∧
    ((decrease_stall_timeout exampleConfig restingMotor).no_spin = true ∧
      (decrease_stall_timeout exampleConfig restingMotor).speed = 0) ∧
    ((next_profile restingMotor).no_spin = true ∧ (next_profile restingMotor).speed = 0) ∧
    ((prev_profile restingMotor).no_spin = true ∧ (prev_profile restingMotor).speed = 0) ∧
    ((handler exampleConfig restingMotor).no_spin = true ∧
      (handler exampleConfig restingMotor).speed = 0) ∧
    (∀ v : Int, (set_speed v restingMotor).no_spin = false ↔ toU8 v ≠ 0) ∧
    ((toggle exampleConfig restingMotor).no_spin = false ↔
      toU8 exampleConfig.MIN_SPEED ≠ 0) :=
  no_spin_sticky exampleConfig restingMotor (by decide) rfl rfl

/-! ## Repeated `increase_speed` -/

theorem ceilDiv_of_dvd (a b : Nat) (hb : 0 < b) (h : b ∣ a) : ceilDiv a b = a / b := by
  unfold ceilDiv
  have h1 : a / b * b = a := Nat.div_mul_cancel h
  apply Nat.div_eq_of_lt_le
  · omega
  · rw [Nat.add_mul]; omega

theorem increase_speed_n_succ (c : Config) (n : Nat) (s : Motor) :
    increase_speed_n c (n + 1) s = increase_speed c (increase_speed_n c n s) := by
  induction n generalizing s with
  | zero => rfl
  | succ m ih =>
    show increase_speed_n c (m + 1) (increase_speed c s) = _
    rw [ih (increase_speed c s)]
    rfl

theorem increase_speed_speed (c : Config) (s : Motor) (h255 : c.MAX_SPEED ≤ 255) :
    (increase_speed c s).speed =
      if s.speed ≥ c.MIN_SPEED ∧ s.speed + c.STEP_SPEED ≤ c.MAX_SPEED
      then s.speed + c.STEP_SPEED else s.speed := by
  unfold increase_speed
  split
  · rename_i h
    have e : ((s.speed : Int) + c.STEP_SPEED) = ((s.speed + c.STEP_SPEED : Nat) : Int) := by
      push_cast; rfl
    rw [set_speed_speed, e, toU8_natCast _ (by omega)]
  · rfl

/-- Closed form of the speed after `n` calls of `increase_speed` from `MIN_SPEED`. -/
theorem increase_speed_n_speed (c : Config) (s : Motor) (hS : 0 < c.STEP_SPEED)
    (hM : c.MIN_SPEED ≤ c.MAX_SPEED) (h255 : c.MAX_SPEED ≤ 255)
    (h0 : s.speed = c.MIN_SPEED) (n : Nat) :
    (increase_speed_n c n s).speed
      = c.MIN_SPEED + min n ((c.MAX_SPEED - c.MIN_SPEED) / c.STEP_SPEED) * c.STEP_SPEED := by
  have hq1 : (c.MAX_SPEED - c.MIN_SPEED) / c.STEP_SPEED * c.STEP_SPEED
      ≤ c.MAX_SPEED - c.MIN_SPEED := Nat.div_mul_le_self _ _
  have hq2 : c.MAX_SPEED - c.MIN_SPEED
      < (c.MAX_SPEED - c.MIN_SPEED) / c.STEP_SPEED * c.STEP_SPEED + c.STEP_SPEED :=
    Nat.lt_div_mul_add hS
  generalize (c.MAX_SPEED - c.MIN_SPEED) / c.STEP_SPEED = q at hq1 hq2 ⊢
  induction n with
  | zero => simp [increase_speed_n, h0]
  | succ m ih =>
    rw [increase_speed_n_succ, increase_speed_speed c _ h255, ih]
    by_cases hlt : m < q
    · have e1 : min m q = m := Nat.min_eq_left (le_of_lt hlt)
      have e2 : min (m + 1) q = m + 1 := Nat.min_eq_left hlt
      have hmul : (m + 1) * c.STEP_SPEED ≤ q * c.STEP_SPEED :=
        Nat.mul_le_mul_right _ hlt
      rw [e1, e2]
      rw [Nat.add_mul] at hmul ⊢
      rw [if_pos (by omega)]
      omega
    · have e1 : min m q = q := Nat.min_eq_right (by omega)
      have e2 : min (m + 1) q = q := Nat.min_eq_right (by omega)
      rw [e1, e2, if_neg (by omega)]

/-- C7 (as stated, refuted). With `MIN_SPEED = 50`, `MAX_SPEED = 255` and
`STEP_SPEED = 10`, after `⌈205 / 10⌉ = 21` calls of `increase_speed` from
`MIN_SPEED` the speed is `250`, not `MAX_SPEED`. -/
theorem increase_speed_n_misses_max :
    ceilDiv (stepTenConfig.MAX_SPEED - stepTenConfig.MIN_SPEED) stepTenConfig.STEP_SPEED = 21 ∧
    (increase_speed_n stepTenConfig 21 minSpeedMotor).speed = 250 ∧
    (increase_speed_n stepTenConfig 21 minSpeedMotor).speed ≠ stepTenConfig.MAX_SPEED := by
  decide

/-- C7 (amended). With `0 < STEP_SPEED` and `0 < MIN_SPEED ≤ MAX_SPEED ≤ 255`,
starting from `speed = MIN_SPEED`: after `n` calls of `increase_speed` the speed
is `MIN_SPEED + min n ⌊(MAX_SPEED - MIN_SPEED) / STEP_SPEED⌋ * STEP_SPEED`, which
never exceeds `MAX_SPEED`; when `STEP_SPEED` divides `MAX_SPEED - MIN_SPEED`
the speed is exactly `MAX_SPEED` after `⌈(MAX_SPEED - MIN_SPEED) / STEP_SPEED⌉`
calls and after every further call; when it does not, the speed stays below
`MAX_SPEED` for every `n`. -/
theorem increase_speed_n_spec (c : Config) (s : Motor) (hS : 0 < c.STEP_SPEED)
    (_hm : 0 < c.MIN_SPEED) (hM : c.MIN_SPEED ≤ c.MAX_SPEED) (h255 : c.MAX_SPEED ≤ 255)
    (h0 : s.speed = c.MIN_SPEED) :
    (∀ n, (increase_speed_n c n s).speed ≤ c.MAX_SPEED) ∧
    (∀ n, (increase_speed_n c n s).speed
      = c.MIN_SPEED + min n ((c.MAX_SPEED - c.MIN_SPEED) / c.STEP_SPEED) * c.STEP_SPEED) ∧
    (c.STEP_SPEED ∣ c.MAX_SPEED - c.MIN_SPEED →
      ∀ n, ceilDiv (c.MAX_SPEED - c.MIN_SPEED) c.STEP_SPEED ≤ n →
        (increase_speed_n c n s).speed = c.MAX_SPEED) ∧
    (¬ c.STEP_SPEED ∣ c.MAX_SPEED - c.MIN_SPEED →
      ∀ n, (increase_speed_n c n s).speed < c.MAX_SPEED) := by
  have hform := increase_speed_n_speed c s hS hM h255 h0
  have hq1 : (c.MAX_SPEED - c.MIN_SPEED) / c.STEP_SPEED * c.STEP_SPEED
      ≤ c.MAX_SPEED - c.MIN_SPEED := Nat.div_mul_le_self _ _
  have hmin : ∀ n, min n ((c.MAX_SPEED - c.MIN_SPEED) / c.STEP_SPEED) * c.STEP_SPEED
      ≤ (c.MAX_SPEED - c.MIN_SPEED) / c.STEP_SPEED * c.STEP_SPEED :=
    fun n => Nat.mul_le_mul_right _ (Nat.min_le_right _ _)
  refine ⟨?_, hform, ?_, ?_⟩
  · intro n
    have := hmin n
    rw [hform n]; omega
  · intro hd n hn
    rw [ceilDiv_of_dvd _ _ hS hd] at hn
    rw [hform n, Nat.min_eq_right hn, Nat.div_mul_cancel hd]
    omega
  · intro hd n
    have hne : (c.MAX_SPEED - c.MIN_SPEED) / c.STEP_SPEED * c.STEP_SPEED
        ≠ c.MAX_SPEED - c.MIN_SPEED := by
      intro he
      exact hd ⟨(c.MAX_SPEED - c.MIN_SPEED) / c.STEP_SPEED, by rw [Nat.mul_comm]; exact he.symm⟩
    have := hmin n
    rw [hform n]; omega

theorem increase_speed_n_spec_witness :
    (∀ n, (increase_speed_n exampleConfig n minSpeedMotor).speed ≤ exampleConfig.MAX_SPEED) ∧
    (∀ n, (increase_speed_n exampleConfig n minSpeedMotor).speed
      = exampleConfig.MIN_SPEED
        + min n ((exampleConfig.MAX_SPEED - exampleConfig.MIN_SPEED) / exampleConfig.STEP_SPEED)
          * exampleConfig.STEP_SPEED) ∧
    (exampleConfig.STEP_SPEED ∣ exampleConfig.MAX_SPEED - exampleConfig.MIN_SPEED →
      ∀ n, ceilDiv (exampleConfig.MAX_SPEED - exampleConfig.MIN_SPEED)
          exampleConfig.STEP_SPEED ≤ n →
        (increase_speed_n exampleConfig n minSpeedMotor).speed = exampleConfig.MAX_SPEED) ∧
    (¬ exampleConfig.STEP_SPEED ∣ exampleConfig.MAX_SPEED - exampleConfig.MIN_SPEED →
      ∀ n, (increase_speed_n exampleConfig n minSpeedMotor).speed < exampleConfig.MAX_SPEED) :=
  increase_speed_n_spec exampleConfig minSpeedMotor (by decide) (by decide) (by decide)
    (by decide) rfl

/-- The worked example of C7: with `50 / 255 / 5` the ceiling is `41` and the
speed after `41` calls is `255`. -/
theorem increase_speed_n_example :
    ceilDiv (exampleConfig.MAX_SPEED - exampleConfig.MIN_SPEED) exampleConfig.STEP_SPEED = 41 ∧
    (increase_speed_n exampleConfig 41 minSpeedMotor).speed = 255 ∧
    (increase_speed_n exampleConfig 40 minSpeedMotor).speed = 250 := by
  decide

/-! ## Stall-timeout stepping -/

theorem increase_stall_timeout_lt_min (c : Config) (s : Motor) (h16 : c.MAX_STALL < 65536)
    (hM : c.MIN_STALL ≤ c.MAX_STALL) (h : s.stall_timeout < c.MIN_STALL) :
    (increase_stall_timeout c s).stall_timeout = c.MIN_STALL := by
  unfold increase_stall_timeout set_stall_timeout
  rw [if_pos h]
  exact toU16_natCast _ (by omega)

theorem increase_stall_timeout_step (c : Config) (s : Motor) (h16 : s.stall_timeout + c.STEP_STALL < 65536)
    (h1 : c.MIN_STALL ≤ s.stall_timeout) (h2 : s.stall_timeout < c.MAX_STALL) :
    (increase_stall_timeout c s).stall_timeout = s.stall_timeout + c.STEP_STALL := by
  unfold increase_stall_timeout set_stall_timeout
  rw [if_neg (by omega), if_pos h2]
  have e : ((s.stall_timeout : Int) + c.STEP_STALL) = ((s.stall_timeout + c.STEP_STALL : Nat) : Int) := by
    push_cast; rfl
  dsimp only
  rw [e]
  exact toU16_natCast _ h16

theorem increase_stall_timeout_top (c : Config) (s : Motor)
    (h1 : c.MIN_STALL ≤ s.stall_timeout) (h2 : ¬ s.stall_timeout < c.MAX_STALL) :
    increase_stall_timeout c s = s := by
  unfold increase_stall_timeout
  rw [if_neg (by omega), if_neg h2]

theorem decrease_stall_timeout_step (c : Config) (s : Motor) (h16 : s.stall_timeout < 65536)
    (h1 : c.MIN_STALL < s.stall_timeout) (h2 : c.STEP_STALL ≤ s.stall_timeout) :
    (decrease_stall_timeout c s).stall_timeout = s.stall_timeout - c.STEP_STALL := by
  unfold decrease_stall_timeout set_stall_timeout
  rw [if_pos h1]
  have e : ((s.stall_timeout : Int) - c.STEP_STALL) = ((s.stall_timeout - c.STEP_STALL : Nat) : Int) := by
    rw [Nat.cast_sub h2]
  dsimp only
  rw [e]
  exact toU16_natCast _ (by omega)

theorem decrease_stall_timeout_floor (c : Config) (s : Motor)
    (h1 : s.stall_timeout ≤ c.MIN_STALL) :
    (decrease_stall_timeout c s).stall_timeout = 0 := by
  unfold decrease_stall_timeout set_stall_timeout
  rw [if_neg (by omega)]
  split
  · rfl
  · omega

/-- On the grid, a value above `MIN_STALL` is at least one step above it, and a
value below `MAX_STALL` at least one step below it. -/
theorem StallGrid_step_room (c : Config) (t : Nat) (hS : 0 < c.STEP_STALL)
    (hg : c.STEP_STALL ∣ c.MAX_STALL - c.MIN_STALL)
    (h1 : c.MIN_STALL ≤ t) (h2 : t ≤ c.MAX_STALL) (hd : c.STEP_STALL ∣ t - c.MIN_STALL) :
    (c.MIN_STALL < t → c.MIN_STALL + c.STEP_STALL ≤ t ∧
      c.STEP_STALL ∣ t - c.STEP_STALL - c.MIN_STALL) ∧
    (t < c.MAX_STALL → t + c.STEP_STALL ≤ c.MAX_STALL ∧
      c.STEP_STALL ∣ t + c.STEP_STALL - c.MIN_STALL) := by
  obtain ⟨a, ha⟩ := hd
  obtain ⟨b, hb⟩ := hg
  constructor
  · intro h
    have ha0 : a ≠ 0 := by
      intro h0; rw [h0, Nat.mul_zero] at ha; omega
    obtain ⟨a2, rfl⟩ := Nat.exists_eq_succ_of_ne_zero ha0
    rw [Nat.mul_succ] at ha
    refine ⟨by omega, ⟨a2, by omega⟩⟩
  · intro h
    have hab : a < b := by
      by_contra hne
      have : c.STEP_STALL * b ≤ c.STEP_STALL * a := Nat.mul_le_mul_left _ (by omega)
      omega
    have hmul : c.STEP_STALL * (a + 1) ≤ c.STEP_STALL * b := Nat.mul_le_mul_left _ hab
    rw [Nat.mul_succ] at hmul
    refine ⟨by omega, ⟨a + 1, by rw [Nat.mul_succ]; omega⟩⟩

/-- C10 (as stated, refuted). With `MIN_STALL = 100`, `MAX_STALL = 1000`,
`STEP_STALL = 100`: from `950` the increase yields `1050 > MAX_STALL`; from `150`
the decrease yields `50`, strictly between `0` and `MIN_STALL`, although the
decreased value falls below `MIN_STALL`.  With `STEP_STALL = 250`, from `200`
the decrease yields the wrapped value `65486`. -/
theorem stall_timeout_step_escapes :
    (increase_stall_timeout exampleConfig { initMotor with stall_timeout := 950 }).stall_timeout
      = 1050 ∧
    exampleConfig.MAX_STALL < 1050 ∧
    (decrease_stall_timeout exampleConfig { initMotor with stall_timeout := 150 }).stall_timeout
      = 50 ∧
    50 < exampleConfig.MIN_STALL ∧
    (decrease_stall_timeout wideStepConfig { initMotor with stall_timeout := 200 }).stall_timeout
      = 65486 := by
  decide

/-- C10 (amended). With `0 < STEP_STALL`, `0 < MIN_STALL ≤ MAX_STALL < 2^16` and
`MAX_STALL` on the step grid `MIN_STALL + k * STEP_STALL`:
`increase_stall_timeout` yields `MIN_STALL` from every value below `MIN_STALL`;
and for every `stall_timeout` that is `0` or on the grid up to `MAX_STALL`, the
increase from a value `≥ MIN_STALL` stays `≤ MAX_STALL` (one step up below
`MAX_STALL`, unchanged at it), the decrease yields `0` when the decreased value
would fall below `MIN_STALL` and `stall_timeout - STEP_STALL` otherwise, and
after either operation `stall_timeout` is again `0` or on the grid, hence in
`[MIN_STALL, MAX_STALL]`. -/
theorem stall_timeout_step_spec (c : Config) (hS : 0 < c.STEP_STALL)
    (hm : 0 < c.MIN_STALL) (hM : c.MIN_STALL ≤ c.MAX_STALL) (h16 : c.MAX_STALL < 65536)
    (hg : c.STEP_STALL ∣ c.MAX_STALL - c.MIN_STALL) :
    (∀ s : Motor, s.stall_timeout < c.MIN_STALL →
      (increase_stall_timeout c s).stall_timeout = c.MIN_STALL) ∧
    (∀ s : Motor, StallGrid c s.stall_timeout →
      (c.MIN_STALL ≤ s.stall_timeout →
        (increase_stall_timeout c s).stall_timeout ≤ c.MAX_STALL ∧
        (increase_stall_timeout c s).stall_timeout
          = if s.stall_timeout < c.MAX_STALL then s.stall_timeout + c.STEP_STALL
            else s.stall_timeout) ∧
      ((s.stall_timeout : Int) - c.STEP_STALL < c.MIN_STALL →
        (decrease_stall_timeout c s).stall_timeout = 0) ∧
      ((c.MIN_STALL : Int) ≤ (s.stall_timeout : Int) - c.STEP_STALL →
        ((decrease_stall_timeout c s).stall_timeout : Int)
          = (s.stall_timeout : Int) - c.STEP_STALL) ∧
      StallGrid c (increase_stall_timeout c s).stall_timeout ∧
      StallGrid c (decrease_stall_timeout c s).stall_timeout ∧
      ((increase_stall_timeout c s).stall_timeout = 0 ∨
        (c.MIN_STALL ≤ (increase_stall_timeout c s).stall_timeout ∧
          (increase_stall_timeout c s).stall_timeout ≤ c.MAX_STALL)) ∧
      ((decrease_stall_timeout c s).stall_timeout = 0 ∨
        (c.MIN_STALL ≤ (decrease_stall_timeout c s).stall_timeout ∧
          (decrease_stall_timeout c s).stall_timeout ≤ c.MAX_STALL))) := by
  have hlow := fun s h => increase_stall_timeout_lt_min c s h16 hM h
  refine ⟨hlow, ?_⟩
  intro s hgrid
  have hmin_grid : StallGrid c c.MIN_STALL := Or.inr ⟨le_refl _, hM, by simp⟩
  rcases hgrid with h0 | ⟨h1, h2, hd⟩
  · -- stall detection disabled
    have hinc := hlow s (by omega)
    have hdec := decrease_stall_timeout_floor c s (by omega)
    rw [hinc, hdec]
    refine ⟨by omega, fun _ => rfl, by omega, hmin_grid, Or.inl rfl, Or.inr ⟨le_refl _, hM⟩,
      Or.inl rfl⟩
  · have hroom := StallGrid_step_room c s.stall_timeout hS hg h1 h2 hd
    -- the increase
    have hinc : (increase_stall_timeout c s).stall_timeout
        = if s.stall_timeout < c.MAX_STALL then s.stall_timeout + c.STEP_STALL
          else s.stall_timeout := by
      split
      · rename_i hlt
        exact increase_stall_timeout_step c s (by have := (hroom.2 hlt).1; omega) h1 hlt
      · rename_i hge
        rw [increase_stall_timeout_top c s h1 hge]
    have hincGrid : StallGrid c (increase_stall_timeout c s).stall_timeout := by
      rw [hinc]
      split
      · rename_i hlt
        exact Or.inr ⟨by omega, (hroom.2 hlt).1, (hroom.2 hlt).2⟩
      · exact Or.inr ⟨h1, h2, hd⟩
    have hincMax : (increase_stall_timeout c s).stall_timeout ≤ c.MAX_STALL := by
      rcases hincGrid with h | h
      · omega
      · exact h.2.1
    -- the decrease
    have hdecGrid : StallGrid c (decrease_stall_timeout c s).stall_timeout ∧
        ((s.stall_timeout : Int) - c.STEP_STALL < c.MIN_STALL →
          (decrease_stall_timeout c s).stall_timeout = 0) ∧
        ((c.MIN_STALL : Int) ≤ (s.stall_timeout : Int) - c.STEP_STALL →
          ((decrease_stall_timeout c s).stall_timeout : Int)
            = (s.stall_timeout : Int) - c.STEP_STALL) := by
      by_cases hgt : c.MIN_STALL < s.stall_timeout
      · have hr := hroom.1 hgt
        have e := decrease_stall_timeout_step c s (by omega) hgt (by omega)
        rw [e]
        refine ⟨Or.inr ⟨by omega, by omega, hr.2⟩, by omega, by omega⟩
      · have e := decrease_stall_timeout_floor c s (by omega)
        rw [e]
        refine ⟨Or.inl rfl, fun _ => rfl, by omega⟩
    refine ⟨fun _ => ⟨hincMax, hinc⟩, hdecGrid.2.1, hdecGrid.2.2, hincGrid, hdecGrid.1, ?_, ?_⟩
    · rcases hincGrid with h | h
      · exact Or.inl h
      · exact Or.inr ⟨h.1, h.2.1⟩
    · rcases hdecGrid.1 with h | h
      · exact Or.inl h
      · exact Or.inr ⟨h.1, h.2.1⟩

theorem stall_timeout_step_spec_witness :
    StallGrid exampleConfig gridMotor.stall_timeout ∧
    (increase_stall_timeout exampleConfig initMotor).stall_timeout = exampleConfig.MIN_STALL ∧
    (exampleConfig.MIN_STALL ≤ gridMotor.stall_timeout →
      (increase_stall_timeout exampleConfig gridMotor).stall_timeout ≤ exampleConfig.MAX_STALL ∧
      (increase_stall_timeout exampleConfig gridMotor).stall_timeout
        = if gridMotor.stall_timeout < exampleConfig.MAX_STALL
          then gridMotor.stall_timeout + exampleConfig.STEP_STALL
          else gridMotor.stall_timeout) ∧
    ((gridMotor.stall_timeout : Int) - exampleConfig.STEP_STALL < exampleConfig.MIN_STALL →
      (decrease_stall_timeout exampleConfig gridMotor).stall_timeout = 0) ∧
    ((exampleConfig.MIN_STALL : Int) ≤ (gridMotor.stall_timeout : Int) - exampleConfig.STEP_STALL →
      ((decrease_stall_timeout exampleConfig gridMotor).stall_timeout : Int)
        = (gridMotor.stall_timeout : Int) - exampleConfig.STEP_STALL) ∧
    StallGrid exampleConfig (increase_stall_timeout exampleConfig gridMotor).stall_timeout ∧
    StallGrid exampleConfig (decrease_stall_timeout exampleConfig gridMotor).stall_timeout ∧
    ((increase_stall_timeout exampleConfig gridMotor).stall_timeout = 0 ∨
      (exampleConfig.MIN_STALL ≤ (increase_stall_timeout exampleConfig gridMotor).stall_timeout ∧
        (increase_stall_timeout exampleConfig gridMotor).stall_timeout
          ≤ exampleConfig.MAX_STALL)) ∧
    ((decrease_stall_timeout exampleConfig gridMotor).stall_timeout = 0 ∨
      (exampleConfig.MIN_STALL ≤ (decrease_stall_timeout exampleConfig gridMotor).stall_timeout ∧
        (decrease_stall_timeout exampleConfig gridMotor).stall_timeout
          ≤ exampleConfig.MAX_STALL)) :=
  ⟨Or.inr ⟨by decide, by decide, by decide⟩,
   (stall_timeout_step_spec exampleConfig (by decide) (by decide) (by decide) (by decide)
      (by decide)).1 initMotor (by decide),
   (stall_timeout_step_spec exampleConfig (by decide) (by decide) (by decide) (by decide)
      (by decide)).2 gridMotor (Or.inr ⟨by decide, by decide, by decide⟩)⟩

/-! ## Frame properties of the dispatcher -/

/-- C11. Under `Manual` with stall detection disabled (`stall_timeout = 0`), for
every stop target and every time, `cycle()` leaves `speed`, `rotary_count` and
`rotary_count_end` unchanged; while the motor is on it leaves the whole state
unchanged. -/
theorem cycle_manual_frame (c : Config) (k : Clock) (s : Motor)
    (hp : s.profile = PROFILE.Manual) (hT : s.stall_timeout = 0) :
    (cycle c k s).speed = s.speed ∧
    (cycle c k s).rotary_count = s.rotary_count ∧
    (cycle c k s).rotary_count_end = s.rotary_count_end ∧
    (s.speed ≠ 0 → cycle c k s = s) := by
  have hon : s.speed ≠ 0 → cycle c k s = s := by
    intro h
    have ha : afterStall c k s = s := by
      unfold afterStall
      rw [if_neg (by simp [hT])]
    rw [cycle_of_on c k s h, ha, hp]
    split <;> rfl
  by_cases h : s.speed = 0
  · rw [cycle_of_off c k s h]
    refine ⟨?_, ?_, ?_, fun h2 => absurd h h2⟩ <;>
    · unfold spin_detect
      dsimp only
      split <;> [split; skip] <;> rfl
  · rw [hon h]
    exact ⟨rfl, rfl, rfl, fun _ => rfl⟩

theorem cycle_manual_frame_witness :
    (cycle exampleConfig clockAt1000 manualMotor).speed = manualMotor.speed ∧
    (cycle exampleConfig clockAt1000 manualMotor).rotary_count = manualMotor.rotary_count ∧
    (cycle exampleConfig clockAt1000 manualMotor).rotary_count_end
      = manualMotor.rotary_count_end ∧
    (manualMotor.speed ≠ 0 → cycle exampleConfig clockAt1000 manualMotor = manualMotor) :=
  cycle_manual_frame exampleConfig clockAt1000 manualMotor rfl rfl

/-- C20. From a state with `speed = 0`, for every profile, stop target,
`stall_timeout` and time, `cycle()` leaves `speed = 0` and leaves
`rotary_count`, `rotary_count_end`, `stall_timeout` and `profile` unchanged:
the result differs from the input at most in `no_spin` and in the baseline of
the no-spin detector. -/
theorem cycle_off_frame (c : Config) (k : Clock) (s : Motor) (h0 : s.speed = 0) :
    (cycle c k s).speed = 0 ∧
    (cycle c k s).rotary_count = s.rotary_count ∧
    (cycle c k s).rotary_count_end = s.rotary_count_end ∧
    (cycle c k s).stall_timeout = s.stall_timeout ∧
    (cycle c k s).profile = s.profile ∧
    cycle c k s = { s with no_spin := (cycle c k s).no_spin,
                           spin_detect_statics := (cycle c k s).spin_detect_statics } := by
  rw [cycle_of_off c k s h0]
  unfold spin_detect
  dsimp only
  split <;> [split; skip] <;> exact ⟨h0, rfl, rfl, rfl, rfl, rfl⟩

theorem cycle_off_frame_witness :
    (cycle exampleConfig clockAt1000 restingMotor).speed = 0 ∧
    (cycle exampleConfig clockAt1000 restingMotor).rotary_count = restingMotor.rotary_count ∧
    (cycle exampleConfig clockAt1000 restingMotor).rotary_count_end
      = restingMotor.rotary_count_end ∧
    (cycle exampleConfig clockAt1000 restingMotor).stall_timeout
      = restingMotor.stall_timeout ∧
    (cycle exampleConfig clockAt1000 restingMotor).profile = restingMotor.profile ∧
    cycle exampleConfig clockAt1000 restingMotor
      = { restingMotor with
            no_spin := (cycle exampleConfig clockAt1000 restingMotor).no_spin,
            spin_detect_statics :=
              (cycle exampleConfig clockAt1000 restingMotor).spin_detect_statics } :=
  cycle_off_frame exampleConfig clockAt1000 restingMotor rfl

/-! ## Stop target, encoder and profile -/

/-- C12. For every state whose `rotary_count_end` is an `unsigned long`,
`increase_stop_evolution` sets `rotary_count_end` to `rotary_count_end + 1`
unless it is `ULONG_MAX` (then the state is unchanged; the result never exceeds
`ULONG_MAX`) and changes nothing else; `decrease_stop_evolution` always sets
`rotary_count` to `0`, sets `rotary_count_end` to `rotary_count_end - 1` if it
is positive and leaves it `0` otherwise, and changes nothing else. -/
theorem stop_evolution_spec (c : Config) (s : Motor)
    (hr : s.rotary_count_end ≤ ULONG_MAX c) :
    increase_stop_evolution c s
      = { s with rotary_count_end :=
            if s.rotary_count_end = ULONG_MAX c then s.rotary_count_end
            else s.rotary_count_end + 1 } ∧
    (increase_stop_evolution c s).rotary_count_end ≤ ULONG_MAX c ∧
    (increase_stop_evolution c s).rotary_count = s.rotary_count ∧
    decrease_stop_evolution s
      = { s with rotary_count := 0,
                 rotary_count_end :=
                   if 0 < s.rotary_count_end then s.rotary_count_end - 1 else 0 } ∧
    (decrease_stop_evolution s).rotary_count = 0 ∧
    ((increase_stop_evolution c s).speed = s.speed ∧
      (increase_stop_evolution c s).profile = s.profile ∧
      (increase_stop_evolution c s).stall_timeout = s.stall_timeout) ∧
    ((decrease_stop_evolution s).speed = s.speed ∧
      (decrease_stop_evolution s).profile = s.profile ∧
      (decrease_stop_evolution s).stall_timeout = s.stall_timeout) := by
  have hinc : increase_stop_evolution c s
      = { s with rotary_count_end :=
            if s.rotary_count_end = ULONG_MAX c then s.rotary_count_end
            else s.rotary_count_end + 1 } := by
    unfold increase_stop_evolution
    by_cases h : s.rotary_count_end = ULONG_MAX c
    · rw [if_neg (by omega), if_pos h]
    · rw [if_pos (by omega), if_neg h]
  have hdec : decrease_stop_evolution s
      = { s with rotary_count := 0,
                 rotary_count_end :=
                   if 0 < s.rotary_count_end then s.rotary_count_end - 1 else 0 } := by
    unfold decrease_stop_evolution
    dsimp only
    by_cases h : 0 < s.rotary_count_end
    · rw [if_pos h, if_pos h]
    · rw [if_neg h, if_neg h]
      have h2 : s.rotary_count_end = 0 := by omega
      rw [← h2]
  refine ⟨hinc, ?_, ?_, hdec, ?_, ?_, ?_⟩
  · rw [hinc]
    dsimp only
    split <;> omega
  · rw [hinc]
  · rw [hdec]
  · rw [hinc]
    exact ⟨rfl, rfl, rfl⟩
  · rw [hdec]
    exact ⟨rfl, rfl, rfl⟩

theorem stop_evolution_spec_witness :
    increase_stop_evolution exampleConfig nearTargetMotor
      = { nearTargetMotor with rotary_count_end :=
            if nearTargetMotor.rotary_count_end = ULONG_MAX exampleConfig
            then nearTargetMotor.rotary_count_end
            else nearTargetMotor.rotary_count_end + 1 } ∧
    (increase_stop_evolution exampleConfig nearTargetMotor).rotary_count_end
      ≤ ULONG_MAX exampleConfig ∧
    (increase_stop_evolution exampleConfig nearTargetMotor).rotary_count
      = nearTargetMotor.rotary_count ∧
    decrease_stop_evolution nearTargetMotor
      = { nearTargetMotor with
            rotary_count := 0,
            rotary_count_end :=
              if 0 < nearTargetMotor.rotary_count_end
              then nearTargetMotor.rotary_count_end - 1 else 0 } ∧
    (decrease_stop_evolution nearTargetMotor).rotary_count = 0 ∧
    ((increase_stop_evolution exampleConfig nearTargetMotor).speed = nearTargetMotor.speed ∧
      (increase_stop_evolution exampleConfig nearTargetMotor).profile
        = nearTargetMotor.profile ∧
      (increase_stop_evolution exampleConfig nearTargetMotor).stall_timeout
        = nearTargetMotor.stall_timeout) ∧
    ((decrease_stop_evolution nearTargetMotor).speed = nearTargetMotor.speed ∧
      (decrease_stop_evolution nearTargetMotor).profile = nearTargetMotor.profile ∧
      (decrease_stop_evolution nearTargetMotor).stall_timeout
        = nearTargetMotor.stall_timeout) :=
  stop_evolution_spec exampleConfig nearTargetMotor (by decide)

theorem toUL_natCast_mod (c : Config) (n : Nat) :
    toUL c (n : Int) = n % 2 ^ c.ULONG_BITS := by
  unfold toUL
  have e : ((n : Int) % (2 : Int) ^ c.ULONG_BITS) = ((n % 2 ^ c.ULONG_BITS : Nat) : Int) := by
    push_cast; rfl
  rw [e]
  exact Int.toNat_natCast _

theorem handler_of_no_spin (c : Config) (s : Motor) (h : s.no_spin = true) :
    handler c s = s := by
  unfold handler is_rotating
  rw [h]
  rfl

theorem handler_iterate_of_no_spin (c : Config) (s : Motor) (h : s.no_spin = true)
    (n : Nat) : Nat.iterate (handler c) n s = s := by
  induction n with
  | zero => rfl
  | succ m ih =>
    rw [Function.iterate_succ_apply, handler_of_no_spin c s h]
    exact ih

/-- C14. One encoder edge sets `rotary_count` to `rotary_count + 1` modulo the
counter width when `no_spin` is false and leaves the state unchanged when
`no_spin` is true, touching no other field in either case.  Hence, once
`no_spin` is set while the motor is off, any number of edges leaves
`rotary_count` frozen, `cycle()` included, and the first edge after a
`set_speed` with a nonzero argument counts again. -/
theorem handler_spec (c : Config) (s : Motor) :
    (s.no_spin = false →
      handler c s
        = { s with rotary_count := (s.rotary_count + 1) % 2 ^ c.ULONG_BITS }) ∧
    (s.no_spin = true → handler c s = s) ∧
    (s.no_spin = true → ∀ n : Nat, Nat.iterate (handler c) n s = s) ∧
    (s.no_spin = true → s.speed = 0 → ∀ k : Clock,
      (handler c (cycle c k s)).rotary_count = s.rotary_count) ∧
    (∀ v : Int, toU8 v ≠ 0 →
      (handler c (set_speed v s)).rotary_count
        = (s.rotary_count + 1) % 2 ^ c.ULONG_BITS) := by
  have hcount : ∀ x : Motor, x.no_spin = false →
      handler c x = { x with rotary_count := (x.rotary_count + 1) % 2 ^ c.ULONG_BITS } := by
    intro x h
    unfold handler is_rotating
    rw [h]
    have e : ((x.rotary_count : Int) + 1) = ((x.rotary_count + 1 : Nat) : Int) := by
      push_cast; rfl
    simp only [Bool.not_false, if_true]
    rw [e, toUL_natCast_mod]
  refine ⟨hcount s, handler_of_no_spin c s, handler_iterate_of_no_spin c s, ?_, ?_⟩
  · intro hn h0 k
    have hk := spin_detect_off_sticky c k.now k.spin_detect_millis s h0 hn
    rw [← cycle_of_off c k s h0] at hk
    rw [handler_of_no_spin c _ hk.1, cycle_of_off c k s h0]
    unfold spin_detect
    dsimp only
    split <;> [split; skip] <;> rfl
  · intro v hv
    have hns : (set_speed v s).no_spin = false := by
      rw [set_speed_no_spin, if_pos hv]
    rw [hcount _ hns]
    simp

theorem handler_spec_witness :
    (handler exampleConfig nearTargetMotor
        = { nearTargetMotor with
              rotary_count := (nearTargetMotor.rotary_count + 1) % 2 ^ exampleConfig.ULONG_BITS }) ∧
    (∀ n : Nat, Nat.iterate (handler exampleConfig) n restingMotor = restingMotor) :=
  ⟨(handler_spec exampleConfig nearTargetMotor).1 rfl,
   (handler_spec exampleConfig restingMotor).2.2.1 rfl⟩

/-- C15. With the order `Manual < Semi < Auto`, `next_profile` maps `Manual` to
`Semi`, `Semi` to `Auto` and leaves `Auto` unchanged; `prev_profile` maps `Auto`
to `Semi`, `Semi` to `Manual` and leaves `Manual` unchanged; no other field
changes, and the value stored is always that of an enumerator: one above, or
one below, the old value, clamped at `Auto` and at `Manual`. -/
theorem profile_step_spec (s : Motor) :
    (s.profile = PROFILE.Manual → next_profile s = { s with profile := PROFILE.Semi }) ∧
    (s.profile = PROFILE.Semi → next_profile s = { s with profile := PROFILE.Auto }) ∧
    (s.profile = PROFILE.Auto → next_profile s = s) ∧
    (s.profile = PROFILE.Auto → prev_profile s = { s with profile := PROFILE.Semi }) ∧
    (s.profile = PROFILE.Semi → prev_profile s = { s with profile := PROFILE.Manual }) ∧
    (s.profile = PROFILE.Manual → prev_profile s = s) ∧
    next_profile s = { s with profile := (next_profile s).profile } ∧
    prev_profile s = { s with profile := (prev_profile s).profile } ∧
    (next_profile s).profile.toInt = min (s.profile.toInt + 1) PROFILE.Auto.toInt ∧
    (prev_profile s).profile.toInt = max (s.profile.toInt - 1) PROFILE.Manual.toInt := by
  obtain ⟨sp, rc, rce, st, pr, ns, a, b, d, e⟩ := s
  cases pr <;> simp [next_profile, prev_profile, PROFILE.toInt, PROFILE.ofInt]

theorem profile_step_spec_witness :
    next_profile nearTargetMotor = { nearTargetMotor with profile := PROFILE.Auto } ∧
    prev_profile nearTargetMotor = { nearTargetMotor with profile := PROFILE.Manual } ∧
    next_profile autoMotor = autoMotor ∧
    prev_profile manualMotor = manualMotor :=
  ⟨(profile_step_spec nearTargetMotor).2.1 rfl,
   (profile_step_spec nearTargetMotor).2.2.2.2.1 rfl,
   (profile_step_spec autoMotor).2.2.1 rfl,
   (profile_step_spec manualMotor).2.2.2.2.2.1 rfl⟩

/-! ## The ramp controller -/

/-- The four branches of `spin_down`, with the remaining count read off the
input state. -/
theorem spin_down_eq (c : Config) (ms i : Nat) (s : Motor) :
    spin_down c ms i s =
      if get_remaining_evolutions c s ≤ c.EVOLUTION_OFFSET then
        { set_speed 0 { s with last_slow_tick := some (slowTick s i) } with
          rotary_count := toUL c ((s.rotary_count_end : Int) * c.EVOLUTION) }
      else if get_remaining_evolutions c s ≤ c.EVOLUTION then
        set_speed c.MIN_SPEED { s with last_slow_tick := some (slowTick s i) }
      else if get_remaining_evolutions c s ≤ 2 * c.EVOLUTION
          ∧ get_period c (slowTick s i) ms ≥ 20 then
        { (if (s.speed : Int) - c.STEP_SPEED > c.MIN_SPEED
            then decrease_speed c { s with last_slow_tick := some (slowTick s i) }
            else { s with last_slow_tick := some (slowTick s i) }) with
          last_slow_tick := some ms }
      else { s with last_slow_tick := some (slowTick s i) } := by
  have e : ∀ t, get_remaining_evolutions c { s with last_slow_tick := t }
      = get_remaining_evolutions c s := fun _ => rfl
  unfold spin_down slowTick
  dsimp only
  simp only [e, set_speed_rotary_count_end]

/-- The two branches of `spin_up`. -/
theorem spin_up_eq (c : Config) (ms i : Nat) (s : Motor) :
    spin_up c ms i s =
      if get_remaining_evolutions c s > 2 * c.EVOLUTION
          ∧ get_period c (incTick s i) ms ≥ c.SPINUP_TIMEOUT then
        { increase_speed c { s with last_inc_tick := some (incTick s i) } with
          last_inc_tick := some ms }
      else { s with last_inc_tick := some (incTick s i) } := by
  have e : ∀ t, get_remaining_evolutions c { s with last_inc_tick := t }
      = get_remaining_evolutions c s := fun _ => rfl
  unfold spin_up incTick
  dsimp only
  simp only [e]

/-- The zones of `spin_down`, the cadence being what the code measures:
`get_period` from its stored tick.  With `EVOLUTION_OFFSET < EVOLUTION`, a
`uint8_t` speed and `MIN_SPEED` representable as one: in the final approach the
speed becomes `MIN_SPEED`; in the deceleration zone with
`get_period ≥ 20` the speed steps down while that stays above `MIN_SPEED` and the
tick is recorded; beyond `2 * EVOLUTION`, or with `get_period < 20` in the
deceleration zone, nothing changes. -/
theorem spin_down_zones (c : Config) (ms i : Nat) (s : Motor)
    (hOff : c.EVOLUTION_OFFSET < c.EVOLUTION) (hmin : c.MIN_SPEED < 256)
    (h8 : s.speed < 256) :
    (c.EVOLUTION_OFFSET < get_remaining_evolutions c s ∧
        get_remaining_evolutions c s ≤ c.EVOLUTION →
      (spin_down c ms i s).speed = c.MIN_SPEED ∧
      (spin_down c ms i s).rotary_count = s.rotary_count) ∧
    (c.EVOLUTION < get_remaining_evolutions c s ∧
        get_remaining_evolutions c s ≤ 2 * c.EVOLUTION ∧
        20 ≤ get_period c (slowTick s i) ms →
      ((s.speed : Int) - c.STEP_SPEED > c.MIN_SPEED →
        ((spin_down c ms i s).speed : Int) = (s.speed : Int) - c.STEP_SPEED ∧
        c.MIN_SPEED < (spin_down c ms i s).speed) ∧
      (¬((s.speed : Int) - c.STEP_SPEED > c.MIN_SPEED) →
        (spin_down c ms i s).speed = s.speed) ∧
      (s.speed ≠ 0 → (spin_down c ms i s).speed ≠ 0) ∧
      (spin_down c ms i s).last_slow_tick = some ms ∧
      (spin_down c ms i s).rotary_count = s.rotary_count) ∧
    ((2 * c.EVOLUTION < get_remaining_evolutions c s ∨
        (c.EVOLUTION < get_remaining_evolutions c s ∧
          get_remaining_evolutions c s ≤ 2 * c.EVOLUTION ∧
          get_period c (slowTick s i) ms < 20)) →
      spin_down c ms i s = { s with last_slow_tick := some (slowTick s i) }) := by
  refine ⟨?_, ?_, ?_⟩
  · rintro ⟨h1, h2⟩
    rw [spin_down_eq, if_neg (by omega), if_pos h2]
    exact ⟨by rw [set_speed_speed, toU8_natCast _ hmin], by rw [set_speed_rotary_count]⟩
  · rintro ⟨h1, h2, h3⟩
    rw [spin_down_eq, if_neg (by omega), if_neg (by omega), if_pos ⟨h2, h3⟩]
    have hdec : (s.speed : Int) - c.STEP_SPEED > c.MIN_SPEED →
        ((decrease_speed c { s with last_slow_tick := some (slowTick s i) }).speed : Int)
          = (s.speed : Int) - c.STEP_SPEED := by
      intro hg
      unfold decrease_speed
      dsimp only
      rw [if_pos (by omega), if_pos hg, set_speed_speed]
      exact toU8_of_lt _ (by omega) (by omega)
    by_cases hg : (s.speed : Int) - c.STEP_SPEED > c.MIN_SPEED
    · have hd := hdec hg
      rw [if_pos hg]
      dsimp only
      refine ⟨fun _ => ⟨hd, by omega⟩, fun hn => absurd hg hn, fun _ => by omega, rfl, ?_⟩
      exact decrease_speed_rotary_count c _
    · rw [if_neg hg]
      exact ⟨fun h => absurd h hg, fun _ => rfl, fun h => h, rfl, rfl⟩
  · intro h
    rw [spin_down_eq, if_neg (by omega), if_neg (by omega), if_neg (by omega)]

/-- Away from a wraparound of the clock, the cadence of `spin_down` is the
elapsed time: with the stored tick not after `ms`, in the deceleration zone
`spin_down` steps the speed down (while that stays above `MIN_SPEED`) and
records the tick when `ms - tick ≥ 20`, and changes nothing when
`ms - tick < 20`. -/
theorem spin_down_zones_no_wrap (c : Config) (ms i : Nat) (s : Motor)
    (hOff : c.EVOLUTION_OFFSET < c.EVOLUTION) (hmin : c.MIN_SPEED < 256)
    (h8 : s.speed < 256) (hms : ms < 2 ^ c.ULONG_BITS) (hle : slowTick s i ≤ ms) :
    (c.EVOLUTION < get_remaining_evolutions c s ∧
        get_remaining_evolutions c s ≤ 2 * c.EVOLUTION ∧
        20 ≤ ms - slowTick s i →
      ((s.speed : Int) - c.STEP_SPEED > c.MIN_SPEED →
        ((spin_down c ms i s).speed : Int) = (s.speed : Int) - c.STEP_SPEED ∧
        c.MIN_SPEED < (spin_down c ms i s).speed) ∧
      (¬((s.speed : Int) - c.STEP_SPEED > c.MIN_SPEED) →
        (spin_down c ms i s).speed = s.speed) ∧
      (s.speed ≠ 0 → (spin_down c ms i s).speed ≠ 0) ∧
      (spin_down c ms i s).last_slow_tick = some ms ∧
      (spin_down c ms i s).rotary_count = s.rotary_count) ∧
    (c.EVOLUTION < get_remaining_evolutions c s ∧
        get_remaining_evolutions c s ≤ 2 * c.EVOLUTION ∧
        ms - slowTick s i < 20 →
      spin_down c ms i s = { s with last_slow_tick := some (slowTick s i) }) := by
  have hp : get_period c (slowTick s i) ms = ms - slowTick s i :=
    get_period_of_le c _ _ hms hle
  have hz := spin_down_zones c ms i s hOff hmin h8
  rw [hp] at hz
  exact ⟨hz.2.1, fun h => hz.2.2 (Or.inr h)⟩

/-- C17 (the code falls short). On `wrapMotor`, in the deceleration zone
(`remaining = 150`, `EVOLUTION = 100`) at speed `100`, the last tick of
`spin_down` is `2^32 - 10` and the call comes at time `10`, `20` time units
later across the wraparound of the clock.  `get_period` yields `19`, so
`spin_down` does not step the speed down to `95` and does not record the
tick. -/
theorem spin_down_cadence_short_across_wrap :
    exampleConfig.EVOLUTION_OFFSET < exampleConfig.EVOLUTION ∧
    exampleConfig.EVOLUTION < get_remaining_evolutions exampleConfig wrapMotor ∧
    get_remaining_evolutions exampleConfig wrapMotor ≤ 2 * exampleConfig.EVOLUTION ∧
    wrapMotor.last_slow_tick = some 4294967286 ∧
    (4294967286 + 20) % 2 ^ exampleConfig.ULONG_BITS = 10 ∧
    (wrapMotor.speed : Int) - exampleConfig.STEP_SPEED > exampleConfig.MIN_SPEED ∧
    get_period exampleConfig 4294967286 10 = 19 ∧
    (spin_down exampleConfig 10 10 wrapMotor).speed = 100 ∧
    (spin_down exampleConfig 10 10 wrapMotor).speed
      ≠ wrapMotor.speed - exampleConfig.STEP_SPEED ∧
    (spin_down exampleConfig 10 10 wrapMotor).last_slow_tick = some 4294967286 := by
  decide

/-- On the first call of `spin_down`, when its initialiser reads `millis()` one
unit after `ms`, `get_period` takes the wraparound branch and yields
`ULONG_MAX - 1`: the speed is stepped down although no time has elapsed since
the tick. -/
theorem spin_down_first_call_steps :
    firstCallMotor.last_slow_tick = none ∧
    get_period exampleConfig 1001 1000 = ULONG_MAX exampleConfig - 1 ∧
    (spin_down exampleConfig 1000 1001 firstCallMotor).speed = 95 ∧
    (spin_down exampleConfig 1000 1001 firstCallMotor).last_slow_tick = some 1000 := by
  decide

theorem stall_detect_profile_comm (c : Config) (ms i : Nat) (s : Motor) (p : PROFILE) :
    stall_detect c ms i { s with profile := p }
      = { stall_detect c ms i s with profile := p } := by
  unfold stall_detect
  dsimp only
  split <;> [split; skip] <;> rfl

theorem afterStall_profile_comm (c : Config) (k : Clock) (s : Motor) (p : PROFILE) :
    afterStall c k { s with profile := p } = { afterStall c k s with profile := p } := by
  unfold afterStall
  dsimp only
  split
  · exact stall_detect_profile_comm c _ _ s p
  · rfl

theorem decrease_speed_speed_congr (c : Config) (x y : Motor) (h : x.speed = y.speed) :
    (decrease_speed c x).speed = (decrease_speed c y).speed := by
  unfold decrease_speed
  rw [h]
  split <;> [split; skip] <;> simp [h]

/-- The speed and the count `spin_down` leaves depend only on the speed, the two
counts and its own tick. -/
theorem spin_down_congr (c : Config) (ms i : Nat) (x y : Motor)
    (h1 : x.speed = y.speed) (h2 : x.rotary_count = y.rotary_count)
    (h3 : x.rotary_count_end = y.rotary_count_end)
    (h4 : x.last_slow_tick = y.last_slow_tick) :
    (spin_down c ms i x).speed = (spin_down c ms i y).speed ∧
    (spin_down c ms i x).rotary_count = (spin_down c ms i y).rotary_count := by
  have hr : get_remaining_evolutions c x = get_remaining_evolutions c y :=
    get_remaining_evolutions_congr c y x h2 h3
  have ht : slowTick x i = slowTick y i := by
    unfold slowTick
    rw [h4]
  rw [spin_down_eq, spin_down_eq, hr, ht, h1, h3]
  split
  · exact ⟨by simp, by simp⟩
  · split
    · exact ⟨by simp, by simp [h2]⟩
    · split
      · split
        · exact ⟨decrease_speed_speed_congr c _ _ rfl, by simp [h2]⟩
        · exact ⟨rfl, h2⟩
      · exact ⟨rfl, h2⟩

/-- C19. Under `Auto`, with the motor on, a target set and
`EVOLUTION_OFFSET ≤ EVOLUTION`, one `cycle()` runs `spin_up` and then
`spin_down` on the state left by the stall detector, and at most one of the two
changes anything but its own tick: when `remaining > 2 * EVOLUTION` (where
`spin_up` may step the speed) `spin_down` leaves speed and `rotary_count`
unchanged, and when `remaining ≤ 2 * EVOLUTION` `spin_up` changes nothing, so
that the speed and `rotary_count` after `cycle()` are those of `cycle()` under
`Semi` from the same state. -/
theorem auto_single_action (c : Config) (k : Clock) (s : Motor)
    (hOE : c.EVOLUTION_OFFSET ≤ c.EVOLUTION) (hon : s.speed ≠ 0)
    (hN : s.rotary_count_end ≠ 0) (hA : s.profile = PROFILE.Auto) :
    cycle c k s
      = spin_down c k.now k.spin_down_millis
          (spin_up c k.now k.spin_up_millis (afterStall c k s)) ∧
    (2 * c.EVOLUTION < get_remaining_evolutions c s →
      (cycle c k s).speed = (spin_up c k.now k.spin_up_millis (afterStall c k s)).speed ∧
      (cycle c k s).rotary_count
        = (spin_up c k.now k.spin_up_millis (afterStall c k s)).rotary_count ∧
      cycle c k s
        = { spin_up c k.now k.spin_up_millis (afterStall c k s) with
            last_slow_tick := (cycle c k s).last_slow_tick }) ∧
    (get_remaining_evolutions c s ≤ 2 * c.EVOLUTION →
      spin_up c k.now k.spin_up_millis (afterStall c k s)
        = { afterStall c k s with
            last_inc_tick := some (incTick (afterStall c k s) k.spin_up_millis) } ∧
      (cycle c k s).speed = (cycle c k { s with profile := PROFILE.Semi }).speed ∧
      (cycle c k s).rotary_count
        = (cycle c k { s with profile := PROFILE.Semi }).rotary_count) ∧
    (spin_up c k.now k.spin_up_millis (afterStall c k s)
        = { afterStall c k s with
            last_inc_tick := some (incTick (afterStall c k s) k.spin_up_millis) } ∨
      cycle c k s
        = { spin_up c k.now k.spin_up_millis (afterStall c k s) with
            last_slow_tick := (cycle c k s).last_slow_tick }) := by
  have hcyc : cycle c k s
      = spin_down c k.now k.spin_down_millis
          (spin_up c k.now k.spin_up_millis (afterStall c k s)) := by
    rw [cycle_of_on c k s hon, afterStall_rotary_count_end, if_pos hN, afterStall_profile, hA]
  have hrx : get_remaining_evolutions c (afterStall c k s) = get_remaining_evolutions c s :=
    get_remaining_evolutions_congr c s _ (by simp) (by simp)
  have hry : get_remaining_evolutions c (spin_up c k.now k.spin_up_millis (afterStall c k s))
      = get_remaining_evolutions c s :=
    get_remaining_evolutions_congr c s _ (by simp) (by simp)
  have hhigh : 2 * c.EVOLUTION < get_remaining_evolutions c s →
      (cycle c k s).speed = (spin_up c k.now k.spin_up_millis (afterStall c k s)).speed ∧
      (cycle c k s).rotary_count
        = (spin_up c k.now k.spin_up_millis (afterStall c k s)).rotary_count ∧
      cycle c k s
        = { spin_up c k.now k.spin_up_millis (afterStall c k s) with
            last_slow_tick := (cycle c k s).last_slow_tick } := by
    intro h
    have e : spin_down c k.now k.spin_down_millis
          (spin_up c k.now k.spin_up_millis (afterStall c k s))
        = { spin_up c k.now k.spin_up_millis (afterStall c k s) with
            last_slow_tick := some (slowTick
              (spin_up c k.now k.spin_up_millis (afterStall c k s)) k.spin_down_millis) } := by
      rw [spin_down_eq, hry, if_neg (by omega), if_neg (by omega), if_neg (by omega)]
    rw [hcyc, e]
    exact ⟨rfl, rfl, rfl⟩
  have hlow : get_remaining_evolutions c s ≤ 2 * c.EVOLUTION →
      spin_up c k.now k.spin_up_millis (afterStall c k s)
        = { afterStall c k s with
            last_inc_tick := some (incTick (afterStall c k s) k.spin_up_millis) } := by
    intro h
    rw [spin_up_eq, hrx, if_neg (by omega)]
  refine ⟨hcyc, hhigh, ?_, ?_⟩
  · intro h
    have hsemi : cycle c k { s with profile := PROFILE.Semi }
        = spin_down c k.now k.spin_down_millis
            { afterStall c k s with profile := PROFILE.Semi } := by
      have hon2 : ({ s with profile := PROFILE.Semi } : Motor).speed ≠ 0 := hon
      rw [cycle_of_on c k _ hon2, afterStall_rotary_count_end, afterStall_profile]
      dsimp only
      rw [if_pos hN, afterStall_profile_comm]
    have hup := hlow h
    refine ⟨hup, ?_⟩
    rw [hcyc, hsemi, hup]
    exact spin_down_congr c _ _ _ _ rfl rfl rfl rfl
  · rcases Nat.lt_or_ge (2 * c.EVOLUTION) (get_remaining_evolutions c s) with h | h
    · exact Or.inr (hhigh h).2.2
    · exact Or.inl (hlow h)

theorem auto_single_action_witness :
    cycle exampleConfig clockAt1000 autoMotor
      = spin_down exampleConfig clockAt1000.now clockAt1000.spin_down_millis
          (spin_up exampleConfig clockAt1000.now clockAt1000.spin_up_millis
            (afterStall exampleConfig clockAt1000 autoMotor)) ∧
    2 * exampleConfig.EVOLUTION < get_remaining_evolutions exampleConfig autoMotor ∧
    (cycle exampleConfig clockAt1000 autoMotor).speed
      = (spin_up exampleConfig clockAt1000.now clockAt1000.spin_up_millis
          (afterStall exampleConfig clockAt1000 autoMotor)).speed ∧
    (cycle exampleConfig clockAt1000 autoMotor).rotary_count
      = (spin_up exampleConfig clockAt1000.now clockAt1000.spin_up_millis
          (afterStall exampleConfig clockAt1000 autoMotor)).rotary_count :=
  ⟨(auto_single_action exampleConfig clockAt1000 autoMotor (by decide) (by decide)
      (by decide) rfl).1,
   by decide,
   ((auto_single_action exampleConfig clockAt1000 autoMotor (by decide) (by decide)
      (by decide) rfl).2.1 (by decide)).1,
   ((auto_single_action exampleConfig clockAt1000 autoMotor (by decide) (by decide)
      (by decide) rfl).2.1 (by decide)).2.1⟩

/-! ## Stall cutoff after a restart -/

/-- The stall detector switches a running motor off only when the window has
expired since the tick of its baseline and the count equals the baseline
count. -/
theorem stall_detect_cutoff_only_if (c : Config) (ms i : Nat) (s : Motor) (b : Baseline)
    (hb : s.stall_detect_statics = some b) (hon : s.speed ≠ 0)
    (hoff : (stall_detect c ms i s).speed = 0) :
    get_period c b.last_spin_tick ms ≥ s.stall_timeout ∧
    b.last_rotary_count = s.rotary_count := by
  unfold stall_detect at hoff
  rw [hb] at hoff
  dsimp only at hoff
  by_cases h1 : get_period c b.last_spin_tick ms ≥ s.stall_timeout
  · by_cases h2 : b.last_rotary_count = s.rotary_count
    · exact ⟨h1, h2⟩
    · rw [if_pos h1, if_neg h2] at hoff
      exact absurd hoff hon
  · rw [if_neg h1] at hoff
    exact absurd hoff hon

/-- C18 (the code falls short). With `stall_timeout = 500` and no encoder pulse
at all: the motor is switched on, `cycle()` runs at time `0`, the motor is
switched off, `cycle()` runs at time `10000` with the motor off, and the motor
is switched on again.  The `cycle()` at time `10001`, at most one time unit
after the switch-on, performs a stall cutoff: the baseline of the stall
detector still dates from time `0`. -/
theorem stall_cutoff_right_after_restart :
    (run exampleConfig freshStallMotor offOps).speed = 0 ∧
    (run exampleConfig freshStallMotor restartOps).speed ≠ 0 ∧
    (run exampleConfig freshStallMotor restartOps).stall_timeout = 500 ∧
    (run exampleConfig freshStallMotor restartOps).stall_detect_statics
      = some (Baseline.mk 0 0) ∧
    10001 - 10000 < (run exampleConfig freshStallMotor restartOps).stall_timeout ∧
    (stall_detect exampleConfig 10001 10001
      (run exampleConfig freshStallMotor restartOps)).speed = 0 ∧
    (cycle exampleConfig (clockAt 10001)
      (run exampleConfig freshStallMotor restartOps)).speed = 0 := by
  decide

end MosfetMotor
